import Mathlib

/-!
Verification development for the Amazon search-term classification engine.

The engine is embedded shallowly: JavaScript numbers are modelled as exact
rationals (ℚ), the JavaScript value `Infinity` (which arises from the
thresholds when the overall conversion rate is zero, from the initial
minimum trackers, and from the estimated-ACOS division guard) is modelled
as `none` in `Option ℚ`, `Map` is modelled as an insertion-ordered
association list, and TS optional fields become `Option`.  JS template
strings and number formatting (`toFixed`) are rendered with an exact
rational printer; no claim depends on the rendered text.  `String.toLowerCase`
is modelled by mapping `Char.toLower` over the characters (the inputs of
interest are ASCII).
-/

/-- Comparison `a < b` where `b` may be the JS value `Infinity` (`none`). -/
def qltOpt (a : ℚ) (b : Option ℚ) : Bool :=
  match b with
  | none => true
  | some q => decide (a < q)

/-- Comparison `a >= b` where `b` may be `Infinity` (`none`): `x >= Infinity` is false. -/
def qgeOpt (a : ℚ) (b : Option ℚ) : Bool :=
  match b with
  | none => false
  | some q => decide (q ≤ a)

/-- Comparison `a < b` where both sides may be `Infinity` (`none`);
`Infinity < Infinity` is false in JS. -/
def optLtOpt (a b : Option ℚ) : Bool :=
  match a, b with
  | none, _ => false
  | some _, none => true
  | some x, some y => decide (x < y)

/-- Comparison `a < b` where `a` may be `Infinity`: `Infinity < x` is false. -/
def optLtQ (a : Option ℚ) (b : ℚ) : Bool :=
  match a with
  | none => false
  | some x => decide (x < b)

/-- Comparison `a > b` where `a` may be `Infinity`: `Infinity > x` is true. -/
def optGtQ (a : Option ℚ) (b : ℚ) : Bool :=
  match a with
  | none => true
  | some x => decide (b < x)

/-- Exact rendering of a rational, standing in for JS number formatting
(`${...}` interpolation and `toFixed`); no claim depends on this text. -/
def qText (q : ℚ) : String :=
  toString q.num ++ (if q.den = 1 then "" else "/" ++ toString q.den)

/-- Splitting a character list at delimiter characters, producing the chunks
between single delimiters (chunks may be empty, exactly as JS
`String.prototype.split` on a character class; the JS sources split on `+`-runs
of delimiters, which yields the same list once empty chunks are removed by the
length filters that both tokenizers apply immediately afterwards). -/
def splitChunks (p : Char → Bool) : List Char → List Char → List (List Char)
  | [], acc => [acc.reverse]
  | c :: rest, acc =>
    if p c then acc.reverse :: splitChunks p rest []
    else splitChunks p rest (c :: acc)

namespace FeatureWordAnalyzer

/-- Delimiters of the regex in `featureWordAnalyzer.ts`:
whitespace (`\s`, modelled by ASCII whitespace) and
`- _ , . / \ | & + ( ) [ ] \x7b \x7d ' " ! ? ; :`. -/
def isDelim (c : Char) : Bool :=
  c ∈ [' ', '\t', '\n', '\r', '\x0b', '\x0c',
       '-', '_', ',', '.', '/', '\\', '|', '&', '+', '(', ')', '[', ']',
       '\x7b', '\x7d', '\x27', '\x22', '!', '?', ';', ':']

/-- The stop-word set of `featureWordAnalyzer.ts`. -/
def stopWords : List String :=
  ["a", "an", "the", "and", "or", "for", "of", "to", "in", "on", "with", "by",
   "at", "from", "as", "is", "it", "be", "are", "was", "were", "been", "being",
   "have", "has", "had", "do", "does", "did", "will", "would", "could", "should",
   "may", "might", "must", "can", "this", "that", "these", "those", "am", "not"]

/-- The function `splitToFeatureWords` from `featureWordAnalyzer.ts`: lower-case, split on
the delimiter class, keep tokens of length in (1, 50], drop purely numeric
tokens (`/^\d+$/`), drop stop words.  The JS null/empty guard `if (!text)`
is modelled by the empty string (the only falsy value of the Lean type). -/
def splitToFeatureWords (text : String) : List String :=
  if text = "" then []
  else
    let lowered := text.data.map Char.toLower
    let words :=
      ((splitChunks isDelim lowered []).map String.mk).filter
        (fun word => decide (1 < word.length) && decide (word.length ≤ 50))
    let words := words.filter (fun word => ! word.data.all Char.isDigit)
    words.filter (fun word => ! stopWords.contains word)

end FeatureWordAnalyzer

namespace AdAnalyzer

/-- The configuration parameters of `adAnalyzer.ts` (`CONFIG` shape). -/
structure Config where
  TARGET_ACOS_INDEX : ℚ
  EXACT_NEGATIVE_LV : ℚ
  PHRASE_NEGATIVE_LV : ℚ
  RELIABILITY : ℚ
  INCREASE_BID_LV : ℚ
  DECREASE_BID_LV : ℚ
deriving DecidableEq

/-- The default `CONFIG` constant of `adAnalyzer.ts`. -/
def CONFIG : Config :=
  { TARGET_ACOS_INDEX := 1
    EXACT_NEGATIVE_LV := 1
    PHRASE_NEGATIVE_LV := 5
    RELIABILITY := 1
    INCREASE_BID_LV := 0.7
    DECREASE_BID_LV := 1.4 }

/-- A parsed search-term record (`SearchTermData`). -/
structure SearchTermData where
  searchTerm : String
  impressions : ℚ
  clicks : ℚ
  spend : ℚ
  sales : ℚ
  orders : ℚ
  acos : ℚ
  ctr : ℚ
  cvr : ℚ
  cpc : ℚ
  campaign : Option String
  adGroup : Option String
  matchType : Option String
deriving DecidableEq

/-- Batch-wide statistics of one feature word (`FeatureWord`). -/
structure FeatureWord where
  word : String
  clicks : ℚ
  orders : ℚ
  spend : ℚ
  sales : ℚ
  conversionRate : ℚ
deriving DecidableEq

/-- The six suggestion categories. -/
inductive Suggestion where
  | Increase_Bid
  | Decrease_Bid
  | Exact_Negative
  | Phrase_Negative
  | Reasonable
  | Pending
deriving DecidableEq

/-- One classification result (`AnalysisResult`).  `estimatedAcos` is a TS
optional field (outer `Option`) whose value may be `Infinity` (inner `Option`). -/
structure AnalysisResult where
  searchTerm : String
  impressions : ℚ
  clicks : ℚ
  spend : ℚ
  sales : ℚ
  orders : ℚ
  acos : ℚ
  ctr : ℚ
  cvr : ℚ
  cpc : ℚ
  suggestion : Suggestion
  suggestedAction : String
  confidence : ℚ
  estimatedAcos : Option (Option ℚ)
  problemKeyword : Option String
  campaign : Option String
  adGroup : Option String
deriving DecidableEq

/-- The five per-category counters of the summary. -/
structure Counters where
  increaseBidCount : ℕ
  decreaseBidCount : ℕ
  negativeCount : ℕ
  reasonableCount : ℕ
  pendingCount : ℕ
deriving DecidableEq

def zeroCounters : Counters := ⟨0, 0, 0, 0, 0⟩

def addCounters (a b : Counters) : Counters :=
  ⟨a.increaseBidCount + b.increaseBidCount,
   a.decreaseBidCount + b.decreaseBidCount,
   a.negativeCount + b.negativeCount,
   a.reasonableCount + b.reasonableCount,
   a.pendingCount + b.pendingCount⟩

/-- The batch summary (`AnalysisSummary`). -/
structure AnalysisSummary where
  totalKeywords : ℕ
  increaseBidCount : ℕ
  decreaseBidCount : ℕ
  negativeCount : ℕ
  reasonableCount : ℕ
  pendingCount : ℕ
  overallAcos : ℚ
  overallConversionRate : ℚ
  averageCpc : ℚ
  averageOrderValue : ℚ
  totalSpend : ℚ
  totalSales : ℚ
  totalOrders : ℚ
  results : List AnalysisResult
deriving DecidableEq

/-- Delimiters of the regex in `adAnalyzer.ts`'s own `splitToFeatureWords`:
whitespace, `- _ , . / \` (a smaller class than the featureWordAnalyzer one). -/
def isDelim (c : Char) : Bool :=
  c ∈ [' ', '\t', '\n', '\r', '\x0b', '\x0c', '-', '_', ',', '.', '/', '\\']

/-- The stop-word set of `adAnalyzer.ts`'s `splitToFeatureWords`. -/
def stopWords : List String :=
  ["a", "an", "the", "and", "or", "for", "of", "to", "in", "on", "with", "by"]

/-- The function `splitToFeatureWords` from `adAnalyzer.ts` (the tokenizer the classifier
uses): lower-case, split on whitespace/hyphen/underscore/comma/period/slash/
backslash, keep tokens of length in (0, 50] (single characters are kept and
there is no numeric filter, unlike the featureWordAnalyzer variant), drop the
twelve stop words. -/
def splitToFeatureWords (searchTerm : String) : List String :=
  let lowered := searchTerm.data.map Char.toLower
  let words :=
    ((splitChunks isDelim lowered []).map String.mk).filter
      (fun word => decide (0 < word.length) && decide (word.length ≤ 50))
  words.filter (fun word => ! stopWords.contains word)

/-- Lookup in the insertion-ordered association list that models the JS `Map`
of feature-word statistics (`featureStats.get`). -/
def fwLookup : List (String × FeatureWord) → String → Option FeatureWord
  | [], _ => none
  | p :: rest, w => if p.1 = w then some p.2 else fwLookup rest w

/-- The in-place accumulation performed on an existing `Map` entry
(`existing.clicks += term.clicks; ...`). -/
def bumpStat (term : SearchTermData) (st : FeatureWord) : FeatureWord :=
  { st with
      clicks := st.clicks + term.clicks
      orders := st.orders + term.orders
      spend := st.spend + term.spend
      sales := st.sales + term.sales }

/-- The entry created on a word's first occurrence (`featureStats.set(word, ...)`). -/
def freshStat (term : SearchTermData) (word : String) : FeatureWord :=
  ⟨word, term.clicks, term.orders, term.spend, term.sales, 0⟩

/-- One inner step of `buildFeatureWordStats`: fold this term's metrics into
the entry of `word` (`Map.set` on first occurrence, in-place accumulation
afterwards). -/
def addFeatureWord (term : SearchTermData) (m : List (String × FeatureWord))
    (word : String) : List (String × FeatureWord) :=
  match fwLookup m word with
  | some _ =>
    m.map (fun p => if p.1 = word then (p.1, bumpStat term p.2) else p)
  | none => m ++ [(word, freshStat term word)]

/-- One iteration of the outer loop of `buildFeatureWordStats`: tokenize the
record's search term and fold each token's statistics in. -/
def addTermStats (m : List (String × FeatureWord)) (term : SearchTermData) :
    List (String × FeatureWord) :=
  (splitToFeatureWords term.searchTerm).foldl (addFeatureWord term) m

/-- The accumulation pass of `buildFeatureWordStats`, before conversion rates
are filled in. -/
def rawStats (data : List SearchTermData) : List (String × FeatureWord) :=
  data.foldl addTermStats []

/-- The conversion-rate pass of `buildFeatureWordStats` (`featureStats.forEach`). -/
def finalizeStat (st : FeatureWord) : FeatureWord :=
  { st with conversionRate := if 0 < st.clicks then st.orders / st.clicks * 100 else 0 }

/-- The function `buildFeatureWordStats` from `adAnalyzer.ts`. -/
def buildFeatureWordStats (data : List SearchTermData) : List (String × FeatureWord) :=
  (rawStats data).map (fun p => (p.1, finalizeStat p.2))

/-- The result record of `getMinFeatureWordConversionRate`.  `minCvr` and
`minClicks` start at `Infinity` (`none`); `zeroCvrWord` and `minClicksWord`
start at `null` (`none`). -/
structure MinFw where
  minCvr : Option ℚ
  hasZeroCvr : Bool
  zeroCvrWord : Option String
  minClicksWord : Option String
  minClicks : Option ℚ
deriving DecidableEq

/-- The JS expression `featureStats.get(zeroCvrWord)?.clicks || 0`. -/
def zeroCvrWordClicks (featureStats : List (String × FeatureWord)) :
    Option String → ℚ
  | none => 0
  | some w =>
    match fwLookup featureStats w with
    | none => 0
    | some st => st.clicks

/-- The body of the `for (const word of words)` loop of
`getMinFeatureWordConversionRate`. -/
def minFwStep (featureStats : List (String × FeatureWord)) (acc : MinFw)
    (word : String) : MinFw :=
  match fwLookup featureStats word with
  | none => acc
  | some stats =>
    let acc1 :=
      if qltOpt stats.clicks acc.minClicks then
        { acc with minClicks := some stats.clicks, minClicksWord := some word }
      else acc
    let acc2 :=
      if 0 < stats.clicks ∧ stats.orders = 0 then
        let a := { acc1 with hasZeroCvr := true }
        if a.zeroCvrWord = none ∨ zeroCvrWordClicks featureStats a.zeroCvrWord < stats.clicks then
          { a with zeroCvrWord := some word }
        else a
      else acc1
    if 0 < stats.conversionRate ∧ qltOpt stats.conversionRate acc2.minCvr then
      { acc2 with minCvr := some stats.conversionRate }
    else acc2

/-- The function `getMinFeatureWordConversionRate` from `adAnalyzer.ts`. -/
def getMinFeatureWordConversionRate (searchTerm : String)
    (featureStats : List (String × FeatureWord)) : MinFw :=
  (splitToFeatureWords searchTerm).foldl (minFwStep featureStats)
    ⟨none, false, none, none, none⟩

/-- The batch-wide totals, overall metrics, target ACOS and thresholds computed
at the head of `analyzeSearchTerms` (lines 241-261).  The three click
thresholds are `Infinity` (`none`) when `overallConversionRate` is zero, which
is exactly what the JS division by zero produces there. -/
structure Baseline where
  totalSpend : ℚ
  totalSales : ℚ
  totalOrders : ℚ
  totalClicks : ℚ
  overallAcos : ℚ
  overallConversionRate : ℚ
  averageCpc : ℚ
  averageOrderValue : ℚ
  targetAcos : ℚ
  exactNegativeClickThreshold : Option ℚ
  phraseNegativeClickThreshold : Option ℚ
  reliabilityClickThreshold : Option ℚ
deriving DecidableEq

def computeBaseline (data : List SearchTermData) (config : Config) : Baseline :=
  let totalSpend := data.foldl (fun sum d => sum + d.spend) (0 : ℚ)
  let totalSales := data.foldl (fun sum d => sum + d.sales) (0 : ℚ)
  let totalOrders := data.foldl (fun sum d => sum + d.orders) (0 : ℚ)
  let totalClicks := data.foldl (fun sum d => sum + d.clicks) (0 : ℚ)
  let overallAcos := if 0 < totalSales then totalSpend / totalSales * 100 else 0
  let overallConversionRate := if 0 < totalClicks then totalOrders / totalClicks * 100 else 0
  let averageCpc := if 0 < totalClicks then totalSpend / totalClicks else 0
  let averageOrderValue := if 0 < totalOrders then totalSales / totalOrders else 0
  let targetAcos := max 20 (overallAcos / config.TARGET_ACOS_INDEX)
  let exactNegativeClickThreshold : Option ℚ :=
    if overallConversionRate = 0 then none
    else some ((max 5 ⌈config.EXACT_NEGATIVE_LV / (overallConversionRate / 100)⌉ : ℤ) : ℚ)
  let phraseNegativeClickThreshold : Option ℚ :=
    if overallConversionRate = 0 then none
    else some ((max 50 ⌈config.PHRASE_NEGATIVE_LV / (overallConversionRate / 100)⌉ : ℤ) : ℚ)
  let reliabilityClickThreshold : Option ℚ :=
    if overallConversionRate = 0 then none
    else some (max 5 (config.RELIABILITY / (overallConversionRate / 100)))
  { totalSpend := totalSpend
    totalSales := totalSales
    totalOrders := totalOrders
    totalClicks := totalClicks
    overallAcos := overallAcos
    overallConversionRate := overallConversionRate
    averageCpc := averageCpc
    averageOrderValue := averageOrderValue
    targetAcos := targetAcos
    exactNegativeClickThreshold := exactNegativeClickThreshold
    phraseNegativeClickThreshold := phraseNegativeClickThreshold
    reliabilityClickThreshold := reliabilityClickThreshold }

/-- The mutable per-record locals of the classification loop together with the
counter increment the taken branch performs. -/
structure Outcome where
  suggestion : Suggestion
  suggestedAction : String
  confidence : ℚ
  estimatedAcos : Option (Option ℚ)
  problemKeyword : Option String
  delta : Counters
deriving DecidableEq

/-- Priorities 4 and 5 of the cascade (zero clicks / zero spend, and the final
fallback), reached when neither a negative check, own orders, nor the
estimated-ACOS branch applied. -/
def lateOutcome (term : SearchTermData) (m : MinFw) : Outcome :=
  if term.clicks = 0 ∨ term.spend = 0 then
    if (match m.minCvr with | some c => decide (0 < c) | none => false) then
      { suggestion := .Pending
        suggestedAction := "所有特征词有转化但该搜索词无点击/花费，建议基于相似搜索词评估"
        confidence := 0.3
        estimatedAcos := none
        problemKeyword := none
        delta := { zeroCounters with pendingCount := 1 } }
    else
      { suggestion := .Pending
        suggestedAction := "无点击或花费数据，需人工判断相关性"
        confidence := 0.3
        estimatedAcos := none
        problemKeyword := none
        delta := { zeroCounters with pendingCount := 1 } }
  else
    { suggestion := .Pending
      suggestedAction := "数据不足，需人工判断相关性"
      confidence := 0.3
      estimatedAcos := none
      problemKeyword := none
      delta := { zeroCounters with pendingCount := 1 } }

/-- The priority cascade of `analyzeSearchTerms` (lines 274-404) for one
record, with the feature-word analysis `m` already computed.  Each branch
mirrors the code: suggestion, rationale, confidence, optional estimated ACOS,
optional problem keyword, and the one counter the branch increments. -/
def classifyOutcome (config : Config) (b : Baseline)
    (featureStats : List (String × FeatureWord)) (term : SearchTermData)
    (m : MinFw) : Outcome :=
  match m.hasZeroCvr, m.zeroCvrWord with
  | true, some zcw =>
    match fwLookup featureStats zcw with
    | some zeroCvrStats =>
      if qgeOpt zeroCvrStats.clicks b.phraseNegativeClickThreshold then
        { suggestion := .Phrase_Negative
          suggestedAction := "特征词\x22" ++ zcw ++ "\x22有" ++ qText zeroCvrStats.clicks
            ++ "次点击但0转化，建议短语否定"
          confidence := 0.8
          estimatedAcos := none
          problemKeyword := some zcw
          delta := { zeroCounters with negativeCount := 1 } }
      else if qgeOpt zeroCvrStats.clicks b.exactNegativeClickThreshold then
        { suggestion := .Exact_Negative
          suggestedAction := "特征词\x22" ++ zcw ++ "\x22有" ++ qText zeroCvrStats.clicks
            ++ "次点击但0转化，建议精准否定"
          confidence := 0.7
          estimatedAcos := none
          problemKeyword := some zcw
          delta := { zeroCounters with negativeCount := 1 } }
      else
        { suggestion := .Pending
          suggestedAction := "特征词\x22" ++ zcw ++ "\x22有" ++ qText zeroCvrStats.clicks
            ++ "次点击0转化，点击量不足以建议否定，需人工判断"
          confidence := 0.3
          estimatedAcos := none
          problemKeyword := some zcw
          delta := { zeroCounters with pendingCount := 1 } }
    | none =>
      -- The JS `if (zeroCvrStats)` guard has no else branch: the defaults
      -- stand and no counter is incremented.  (This path is unreachable:
      -- `zeroCvrWord` is only ever set to a word found in `featureStats`.)
      { suggestion := .Pending
        suggestedAction := "数据不足，需人工判断相关性"
        confidence := 0.3
        estimatedAcos := none
        problemKeyword := none
        delta := zeroCounters }
  | _, _ =>
    if 0 < term.orders then
      let currentAcos := term.acos
      if currentAcos < b.targetAcos * config.INCREASE_BID_LV then
        { suggestion := .Increase_Bid
          suggestedAction := "ACOS " ++ qText currentAcos ++ "% 低于目标"
            ++ qText (b.targetAcos * config.INCREASE_BID_LV) ++ "%，建议提高竞价获取更多流量"
          confidence := min 0.99 (0.5 + term.orders * 0.05)
          estimatedAcos := some (some currentAcos)
          problemKeyword := none
          delta := { zeroCounters with increaseBidCount := 1 } }
      else if b.targetAcos * config.DECREASE_BID_LV < currentAcos then
        { suggestion := .Decrease_Bid
          suggestedAction := "ACOS " ++ qText currentAcos ++ "% 高于目标"
            ++ qText (b.targetAcos * config.DECREASE_BID_LV) ++ "%，建议降低竞价优化利润"
          confidence := min 0.99 (0.5 + term.orders * 0.05)
          estimatedAcos := some (some currentAcos)
          problemKeyword := none
          delta := { zeroCounters with decreaseBidCount := 1 } }
      else
        { suggestion := .Reasonable
          suggestedAction := "ACOS " ++ qText currentAcos ++ "% 在合理范围内("
            ++ qText (b.targetAcos * config.INCREASE_BID_LV) ++ "%~"
            ++ qText (b.targetAcos * config.DECREASE_BID_LV) ++ "%)，建议保持现状"
          confidence := min 0.85 (0.4 + term.orders * 0.05)
          estimatedAcos := some (some currentAcos)
          problemKeyword := none
          delta := { zeroCounters with reasonableCount := 1 } }
    else
      match m.minCvr with
      | some minCvr =>
        if 0 < minCvr ∧ 0 < term.clicks ∧ 0 < term.cpc then
          let estimatedCvr := minCvr / 100
          let estimatedOrdersPerClick := estimatedCvr
          let estimatedSalesPerClick := estimatedOrdersPerClick * b.averageOrderValue
          let estimatedAcos : Option ℚ :=
            if 0 < estimatedSalesPerClick then some (term.cpc / estimatedSalesPerClick * 100)
            else none
          if optLtOpt m.minClicks b.reliabilityClickThreshold then
            { suggestion := .Pending
              suggestedAction := "特征词\x22" ++ (m.minClicksWord.getD "") ++ "\x22点击量"
                ++ qText (m.minClicks.getD 0) ++ "不足，需人工判断"
              confidence := 0.3
              estimatedAcos := some estimatedAcos
              problemKeyword := m.minClicksWord
              delta := { zeroCounters with pendingCount := 1 } }
          else if optLtQ estimatedAcos (b.targetAcos * config.INCREASE_BID_LV) then
            { suggestion := .Increase_Bid
              suggestedAction := "预估ACOS " ++ qText (estimatedAcos.getD 0)
                ++ "% 低于目标，建议提高竞价"
              confidence := 0.6
              estimatedAcos := some estimatedAcos
              problemKeyword := none
              delta := { zeroCounters with increaseBidCount := 1 } }
          else if optGtQ estimatedAcos (b.targetAcos * config.DECREASE_BID_LV) then
            { suggestion := .Decrease_Bid
              suggestedAction := "预估ACOS " ++ qText (estimatedAcos.getD 0)
                ++ "% 高于目标，建议降低竞价"
              confidence := 0.6
              estimatedAcos := some estimatedAcos
              problemKeyword := none
              delta := { zeroCounters with decreaseBidCount := 1 } }
          else
            { suggestion := .Reasonable
              suggestedAction := "预估ACOS " ++ qText (estimatedAcos.getD 0)
                ++ "% 在合理范围内，建议保持现状"
              confidence := 0.5
              estimatedAcos := some estimatedAcos
              problemKeyword := none
              delta := { zeroCounters with reasonableCount := 1 } }
        else lateOutcome term m
      | none => lateOutcome term m

/-- One iteration of the classification loop: compute the feature-word
analysis for the record, run the cascade, and assemble the pushed
`AnalysisResult` together with the counter increment. -/
def classifyTerm (config : Config) (b : Baseline)
    (featureStats : List (String × FeatureWord)) (term : SearchTermData) :
    AnalysisResult × Counters :=
  let m := getMinFeatureWordConversionRate term.searchTerm featureStats
  let o := classifyOutcome config b featureStats term m
  ({ searchTerm := term.searchTerm
     impressions := term.impressions
     clicks := term.clicks
     spend := term.spend
     sales := term.sales
     orders := term.orders
     acos := term.acos
     ctr := term.ctr
     cvr := term.cvr
     cpc := term.cpc
     suggestion := o.suggestion
     suggestedAction := o.suggestedAction
     confidence := o.confidence
     estimatedAcos := o.estimatedAcos
     problemKeyword := o.problemKeyword
     campaign := term.campaign
     adGroup := term.adGroup }, o.delta)

/-- One iteration of the `for (const term of data)` loop: push the record's
result and add its counter increment. -/
def analyzeStep (config : Config) (b : Baseline)
    (featureStats : List (String × FeatureWord))
    (acc : List AnalysisResult × Counters) (term : SearchTermData) :
    List AnalysisResult × Counters :=
  let rc := classifyTerm config b featureStats term
  (acc.1 ++ [rc.1], addCounters acc.2 rc.2)

/-- The function `analyzeSearchTerms` from `adAnalyzer.ts` (the feature-word-aware
implementation the specification follows). -/
def analyzeSearchTerms (data : List SearchTermData) (config : Config) :
    AnalysisSummary :=
  let b := computeBaseline data config
  let featureStats := buildFeatureWordStats data
  let folded :=
    data.foldl (analyzeStep config b featureStats) ([], zeroCounters)
  { totalKeywords := data.length
    increaseBidCount := folded.2.increaseBidCount
    decreaseBidCount := folded.2.decreaseBidCount
    negativeCount := folded.2.negativeCount
    reasonableCount := folded.2.reasonableCount
    pendingCount := folded.2.pendingCount
    overallAcos := b.overallAcos
    overallConversionRate := b.overallConversionRate
    averageCpc := b.averageCpc
    averageOrderValue := b.averageOrderValue
    totalSpend := b.totalSpend
    totalSales := b.totalSales
    totalOrders := b.totalOrders
    results := folded.1 }

/-- The classification the engine applies to one record of a batch: the
record's `AnalysisResult` as pushed by `analyzeSearchTerms data config`. -/
def classifyOne (data : List SearchTermData) (config : Config)
    (term : SearchTermData) : AnalysisResult :=
  (classifyTerm config (computeBaseline data config) (buildFeatureWordStats data) term).1

/-- The counter increment the engine performs for one record of a batch. -/
def deltaOne (data : List SearchTermData) (config : Config)
    (term : SearchTermData) : Counters :=
  (classifyTerm config (computeBaseline data config) (buildFeatureWordStats data) term).2

theorem foldl_analyzeStep_fst (config : Config) (b : Baseline)
    (featureStats : List (String × FeatureWord)) :
    ∀ (l : List SearchTermData) (acc : List AnalysisResult × Counters),
      (l.foldl (analyzeStep config b featureStats) acc).1 =
        acc.1 ++ l.map (fun t => (classifyTerm config b featureStats t).1) := by
  intro l
  induction l with
  | nil => intro acc; simp [List.foldl]
  | cons t rest ih =>
    intro acc
    simp [List.foldl, ih, analyzeStep]

theorem foldl_analyzeStep_snd (config : Config) (b : Baseline)
    (featureStats : List (String × FeatureWord)) :
    ∀ (l : List SearchTermData) (acc : List AnalysisResult × Counters),
      (l.foldl (analyzeStep config b featureStats) acc).2 =
        l.foldl (fun c t => addCounters c (classifyTerm config b featureStats t).2) acc.2 := by
  intro l
  induction l with
  | nil => intro acc; simp [List.foldl]
  | cons t rest ih =>
    intro acc
    simp [List.foldl, ih, analyzeStep]

/-- The results list of a run is the per-record classification mapped over the
input, in order. -/
theorem analyzeSearchTerms_results (data : List SearchTermData) (config : Config) :
    (analyzeSearchTerms data config).results = data.map (classifyOne data config) := by
  unfold analyzeSearchTerms
  simp only [foldl_analyzeStep_fst]
  rfl

/-- Index-wise version of `analyzeSearchTerms_results`. -/
theorem analyzeSearchTerms_results_idx (data : List SearchTermData) (config : Config)
    (i : ℕ) :
    (analyzeSearchTerms data config).results[i]? = (data[i]?).map (classifyOne data config) := by
  rw [analyzeSearchTerms_results]
  exact List.getElem?_map _ _ _

/-- The invariant of the word loop in `getMinFeatureWordConversionRate`:
whenever `zeroCvrWord` is set, it names a word whose statistics exist and show
clicks without orders. -/
def ZcwInv (featureStats : List (String × FeatureWord)) (acc : MinFw) : Prop :=
  ∀ w, acc.zeroCvrWord = some w →
    ∃ st, fwLookup featureStats w = some st ∧ 0 < st.clicks ∧ st.orders = 0

/-- Each loop iteration either leaves `zeroCvrWord` unchanged or points it at
the processed word, whose statistics then show clicks without orders. -/
theorem minFwStep_zeroCvrWord (featureStats : List (String × FeatureWord))
    (acc : MinFw) (word : String) :
    (minFwStep featureStats acc word).zeroCvrWord = acc.zeroCvrWord ∨
      ((minFwStep featureStats acc word).zeroCvrWord = some word ∧
        ∃ st, fwLookup featureStats word = some st ∧ 0 < st.clicks ∧ st.orders = 0) := by
  unfold minFwStep
  cases hl : fwLookup featureStats word with
  | none => left; rfl
  | some stats =>
    dsimp only
    split_ifs <;> simp_all

theorem minFwStep_zcwInv (featureStats : List (String × FeatureWord)) (acc : MinFw)
    (word : String) (h : ZcwInv featureStats acc) :
    ZcwInv featureStats (minFwStep featureStats acc word) := by
  intro w hw
  rcases minFwStep_zeroCvrWord featureStats acc word with hc | ⟨hc, st, hst⟩
  · exact h w (hc ▸ hw)
  · rw [hc] at hw
    cases hw
    exact ⟨st, hst⟩

theorem foldl_minFwStep_zcwInv (featureStats : List (String × FeatureWord)) :
    ∀ (l : List String) (acc : MinFw), ZcwInv featureStats acc →
      ZcwInv featureStats (l.foldl (minFwStep featureStats) acc) := by
  intro l
  induction l with
  | nil => intro acc h; exact h
  | cons word rest ih =>
    intro acc h
    exact ih (minFwStep featureStats acc word) (minFwStep_zcwInv featureStats acc word h)

/-- Whenever `getMinFeatureWordConversionRate` reports a `zeroCvrWord`, that
word has an entry in the statistics map with clicks and no orders. -/
theorem getMin_zcwInv (searchTerm : String) (featureStats : List (String × FeatureWord)) :
    ZcwInv featureStats (getMinFeatureWordConversionRate searchTerm featureStats) := by
  apply foldl_minFwStep_zcwInv
  intro w hw
  cases hw

def sumCounters (c : Counters) : ℕ :=
  c.increaseBidCount + c.decreaseBidCount + c.negativeCount + c.reasonableCount + c.pendingCount

theorem sumCounters_add (a b : Counters) :
    sumCounters (addCounters a b) = sumCounters a + sumCounters b := by
  simp only [sumCounters, addCounters]
  ring

theorem lateOutcome_delta_sum (term : SearchTermData) (m : MinFw) :
    sumCounters (lateOutcome term m).delta = 1 := by
  unfold lateOutcome
  split_ifs <;> simp [sumCounters, zeroCounters]

/-- Every branch of the cascade increments exactly one counter.  The JS
`if (zeroCvrStats)` guard with no else branch is the one spot where no counter
would be incremented, and it cannot be reached because `zeroCvrWord` always
names a word present in the statistics map. -/
theorem classifyOutcome_delta_sum (config : Config) (b : Baseline)
    (featureStats : List (String × FeatureWord)) (term : SearchTermData) (m : MinFw)
    (hm : ZcwInv featureStats m) :
    sumCounters (classifyOutcome config b featureStats term m).delta = 1 := by
  unfold classifyOutcome
  cases hz : m.hasZeroCvr <;> cases hw : m.zeroCvrWord <;> cases hc : m.minCvr <;>
    dsimp only <;>
    first
    | (obtain ⟨st, hst, -, -⟩ := hm _ hw
       simp only [hst]
       split_ifs <;> simp [sumCounters, zeroCounters])
    | (split_ifs <;>
        first
        | exact lateOutcome_delta_sum term m
        | simp [sumCounters, zeroCounters])

theorem classifyTerm_delta_sum (config : Config) (b : Baseline)
    (featureStats : List (String × FeatureWord)) (term : SearchTermData) :
    sumCounters (classifyTerm config b featureStats term).2 = 1 := by
  unfold classifyTerm
  exact classifyOutcome_delta_sum config b featureStats term _ (getMin_zcwInv _ _)

/-- Each loop iteration either leaves `zeroCvrWord` unchanged or moves it to
the processed word; in the latter case the word's statistics show clicks
without orders and the replacement condition of the code held. -/
theorem minFwStep_zeroCvrWord_cases (featureStats : List (String × FeatureWord))
    (acc : MinFw) (word : String) :
    (minFwStep featureStats acc word).zeroCvrWord = acc.zeroCvrWord ∨
      ∃ stats, fwLookup featureStats word = some stats ∧ 0 < stats.clicks ∧
        stats.orders = 0 ∧ (minFwStep featureStats acc word).zeroCvrWord = some word ∧
        (acc.zeroCvrWord = none ∨
          zeroCvrWordClicks featureStats acc.zeroCvrWord < stats.clicks) := by
  unfold minFwStep
  cases hl : fwLookup featureStats word with
  | none => left; rfl
  | some stats =>
    dsimp only
    split_ifs <;> simp_all

/-- The flag `hasZeroCvr` never reverts to `false`, and it can only become `true` when
the processed word's statistics show clicks without orders. -/
theorem minFwStep_hasZeroCvr_cases (featureStats : List (String × FeatureWord))
    (acc : MinFw) (word : String) :
    (minFwStep featureStats acc word).hasZeroCvr = acc.hasZeroCvr ∨
      ((minFwStep featureStats acc word).hasZeroCvr = true ∧
        ∃ stats, fwLookup featureStats word = some stats ∧ 0 < stats.clicks ∧
          stats.orders = 0) := by
  unfold minFwStep
  cases hl : fwLookup featureStats word with
  | none => left; rfl
  | some stats =>
    dsimp only
    split_ifs <;> simp_all

/-- The tracker `minCvr` either stays, or becomes the processed word's positive
conversion rate. -/
theorem minFwStep_minCvr_cases (featureStats : List (String × FeatureWord))
    (acc : MinFw) (word : String) :
    (minFwStep featureStats acc word).minCvr = acc.minCvr ∨
      ∃ stats, fwLookup featureStats word = some stats ∧
        (minFwStep featureStats acc word).minCvr = some stats.conversionRate ∧
        0 < stats.conversionRate := by
  unfold minFwStep
  cases hl : fwLookup featureStats word with
  | none => left; rfl
  | some stats =>
    dsimp only
    split_ifs <;> simp_all

theorem foldl_minFwStep_hasZero (featureStats : List (String × FeatureWord)) :
    ∀ (l : List String) (acc : MinFw),
      (l.foldl (minFwStep featureStats) acc).hasZeroCvr = true →
        acc.hasZeroCvr = true ∨
          ∃ w ∈ l, ∃ st, fwLookup featureStats w = some st ∧ 0 < st.clicks ∧
            st.orders = 0 := by
  intro l
  induction l with
  | nil => intro acc h; exact Or.inl h
  | cons word rest ih =>
    intro acc h
    rcases ih (minFwStep featureStats acc word) h with h1 | ⟨w, hwmem, st, hst⟩
    · rcases minFwStep_hasZeroCvr_cases featureStats acc word with hc | ⟨-, stats, hs⟩
      · exact Or.inl (hc ▸ h1)
      · exact Or.inr ⟨word, List.mem_cons_self word rest, stats, hs⟩
    · exact Or.inr ⟨w, List.mem_cons_of_mem word hwmem, st, hst⟩

/-- If the analysis of a search term reports a zero-conversion feature word,
then one of the term's own tokens has statistics with clicks and no orders. -/
theorem getMin_hasZeroCvr_src (searchTerm : String)
    (featureStats : List (String × FeatureWord))
    (h : (getMinFeatureWordConversionRate searchTerm featureStats).hasZeroCvr = true) :
    ∃ w ∈ splitToFeatureWords searchTerm, ∃ st, fwLookup featureStats w = some st ∧
      0 < st.clicks ∧ st.orders = 0 := by
  rcases foldl_minFwStep_hasZero featureStats (splitToFeatureWords searchTerm) _ h with h1 | h2
  · cases h1
  · exact h2

/-- The invariant that `minCvr`, when set, is the positive conversion rate of
some entry of the statistics map. -/
def MinCvrInv (featureStats : List (String × FeatureWord)) (acc : MinFw) : Prop :=
  ∀ c, acc.minCvr = some c →
    ∃ w st, fwLookup featureStats w = some st ∧ st.conversionRate = c ∧ 0 < c

theorem foldl_minFwStep_minCvrInv (featureStats : List (String × FeatureWord)) :
    ∀ (l : List String) (acc : MinFw), MinCvrInv featureStats acc →
      MinCvrInv featureStats (l.foldl (minFwStep featureStats) acc) := by
  intro l
  induction l with
  | nil => intro acc h; exact h
  | cons word rest ih =>
    intro acc h
    apply ih
    intro c hc
    rcases minFwStep_minCvr_cases featureStats acc word with heq | ⟨stats, hl, heq, hpos⟩
    · exact h c (heq ▸ hc)
    · rw [heq] at hc
      cases hc
      exact ⟨word, stats, hl, rfl, hpos⟩

/-- Whenever `getMinFeatureWordConversionRate` reports a minimum conversion
rate, it is the positive conversion rate of some entry of the statistics map. -/
theorem getMin_minCvrInv (searchTerm : String)
    (featureStats : List (String × FeatureWord)) :
    MinCvrInv featureStats (getMinFeatureWordConversionRate searchTerm featureStats) := by
  apply foldl_minFwStep_minCvrInv
  intro c hc
  cases hc

/-- Processing a word whose statistics show clicks without orders always
leaves `hasZeroCvr` set. -/
theorem minFwStep_at_zero_has (featureStats : List (String × FeatureWord))
    (acc : MinFw) (word : String) (st : FeatureWord)
    (hl : fwLookup featureStats word = some st) (hc : 0 < st.clicks)
    (ho : st.orders = 0) :
    (minFwStep featureStats acc word).hasZeroCvr = true := by
  unfold minFwStep
  rw [hl]
  dsimp only
  split_ifs <;> simp_all

/-- Processing a word whose statistics show clicks without orders either
selects that word as `zeroCvrWord`, or keeps a previous `zeroCvrWord` with at
least as many clicks. -/
theorem minFwStep_at_zero_zcw (featureStats : List (String × FeatureWord))
    (acc : MinFw) (word : String) (st : FeatureWord)
    (hl : fwLookup featureStats word = some st) (hc : 0 < st.clicks)
    (ho : st.orders = 0) :
    (minFwStep featureStats acc word).zeroCvrWord = some word ∨
      ∃ u, acc.zeroCvrWord = some u ∧
        (minFwStep featureStats acc word).zeroCvrWord = some u ∧
        st.clicks ≤ zeroCvrWordClicks featureStats acc.zeroCvrWord := by
  unfold minFwStep
  rw [hl]
  dsimp only
  split_ifs <;> simp_all [Option.ne_none_iff_exists']

/-- The classifier-relevant outcome of the word loop once some zero-conversion
token with at least `k` clicks has been seen: `hasZeroCvr` is set and
`zeroCvrWord` names a token whose statistics show at least `k` clicks and no
orders. -/
def ZcwGe (featureStats : List (String × FeatureWord)) (k : ℚ) (acc : MinFw) : Prop :=
  acc.hasZeroCvr = true ∧
    ∃ w2 st2, acc.zeroCvrWord = some w2 ∧ fwLookup featureStats w2 = some st2 ∧
      0 < st2.clicks ∧ st2.orders = 0 ∧ k ≤ st2.clicks

theorem minFwStep_preserves_ZcwGe (featureStats : List (String × FeatureWord))
    (k : ℚ) (acc : MinFw) (word : String) (h : ZcwGe featureStats k acc) :
    ZcwGe featureStats k (minFwStep featureStats acc word) := by
  obtain ⟨hh, w2, st2, hzw, hlk, hc2, ho2, hk⟩ := h
  constructor
  · rcases minFwStep_hasZeroCvr_cases featureStats acc word with he | ⟨ht, -⟩
    · rw [he]; exact hh
    · exact ht
  · rcases minFwStep_zeroCvrWord_cases featureStats acc word with
      he | ⟨stats, hls, hcs, hos, hset, hcond⟩
    · exact ⟨w2, st2, he ▸ hzw, hlk, hc2, ho2, hk⟩
    · refine ⟨word, stats, hset, hls, hcs, hos, ?_⟩
      rcases hcond with hnone | hlt
      · rw [hzw] at hnone; cases hnone
      · have hz : zeroCvrWordClicks featureStats acc.zeroCvrWord = st2.clicks := by
          rw [hzw]
          simp [zeroCvrWordClicks, hlk]
        rw [hz] at hlt
        linarith

theorem foldl_preserves_ZcwGe (featureStats : List (String × FeatureWord)) (k : ℚ) :
    ∀ (l : List String) (acc : MinFw), ZcwGe featureStats k acc →
      ZcwGe featureStats k (l.foldl (minFwStep featureStats) acc) := by
  intro l
  induction l with
  | nil => intro acc h; exact h
  | cons word rest ih =>
    intro acc h
    exact ih _ (minFwStep_preserves_ZcwGe featureStats k acc word h)

/-- If one of a search term's tokens has statistics with `clicks > 0` and
`orders = 0`, the word loop ends with `hasZeroCvr` set and with `zeroCvrWord`
naming a zero-conversion token with at least as many clicks. -/
theorem getMin_zero_max (searchTerm : String)
    (featureStats : List (String × FeatureWord)) (w : String) (st : FeatureWord)
    (hw : w ∈ splitToFeatureWords searchTerm)
    (hst : fwLookup featureStats w = some st) (hc : 0 < st.clicks)
    (ho : st.orders = 0) :
    ZcwGe featureStats st.clicks
      (getMinFeatureWordConversionRate searchTerm featureStats) := by
  obtain ⟨l1, l2, hsplit⟩ := List.append_of_mem hw
  unfold getMinFeatureWordConversionRate
  rw [hsplit, List.foldl_append, List.foldl_cons]
  apply foldl_preserves_ZcwGe
  have hinv := foldl_minFwStep_zcwInv featureStats l1 ⟨none, false, none, none, none⟩
    (fun u hu => by cases hu)
  constructor
  · exact minFwStep_at_zero_has featureStats _ w st hst hc ho
  · rcases minFwStep_at_zero_zcw featureStats
        (l1.foldl (minFwStep featureStats) ⟨none, false, none, none, none⟩) w st hst hc ho with
      hset | ⟨u, hu, hset, hk⟩
    · exact ⟨w, st, hset, hst, hc, ho, le_refl _⟩
    · obtain ⟨st2, hl2, hc2, ho2⟩ := hinv u hu
      refine ⟨u, st2, hset, hl2, hc2, ho2, ?_⟩
      rw [hu] at hk
      simpa [zeroCvrWordClicks, hl2] using hk

/-- The comparison `a >= t` is monotone in `a` (with `t` possibly infinite). -/
theorem qgeOpt_mono (a b : ℚ) (t : Option ℚ) (h : qgeOpt a t = true) (hab : a ≤ b) :
    qgeOpt b t = true := by
  cases t with
  | none => simp [qgeOpt] at h
  | some q =>
    simp only [qgeOpt, decide_eq_true_eq] at h ⊢
    linarith

/-- The first branch of the cascade: a set `hasZeroCvr` with a looked-up
`zeroCvrWord` meeting the phrase threshold yields `Phrase_Negative` with
confidence 0.8 and `problemKeyword` the selected token. -/
theorem classifyOutcome_phrase (config : Config) (b : Baseline)
    (featureStats : List (String × FeatureWord)) (term : SearchTermData)
    (m : MinFw) (w2 : String) (st2 : FeatureWord)
    (hz : m.hasZeroCvr = true) (hw : m.zeroCvrWord = some w2)
    (hl : fwLookup featureStats w2 = some st2)
    (hge : qgeOpt st2.clicks b.phraseNegativeClickThreshold = true) :
    (classifyOutcome config b featureStats term m).suggestion = Suggestion.Phrase_Negative ∧
      (classifyOutcome config b featureStats term m).confidence = 0.8 ∧
      (classifyOutcome config b featureStats term m).problemKeyword = some w2 := by
  unfold classifyOutcome
  simp only [hz, hw, hl, hge, if_true]
  refine ⟨?_, ?_, ?_⟩ <;> trivial
theorem fwLookup_cons (p : String × FeatureWord)
    (rest : List (String × FeatureWord)) (w : String) :
    fwLookup (p :: rest) w = if p.1 = w then some p.2 else fwLookup rest w := rfl

theorem fwLookup_mem (m : List (String × FeatureWord)) (w : String)
    (st : FeatureWord) (h : fwLookup m w = some st) : (w, st) ∈ m := by
  induction m with
  | nil => cases h
  | cons p rest ih =>
    obtain ⟨p1, p2⟩ := p
    rw [fwLookup_cons] at h
    by_cases hp : p1 = w
    · subst hp
      rw [if_pos rfl] at h
      cases h
      exact List.mem_cons_self _ _
    · rw [if_neg hp] at h
      exact List.mem_cons_of_mem _ (ih h)

theorem fwLookup_append_some (m m2 : List (String × FeatureWord)) (w : String)
    (v : FeatureWord) (h : fwLookup m w = some v) : fwLookup (m ++ m2) w = some v := by
  induction m with
  | nil => cases h
  | cons p rest ih =>
    rw [List.cons_append, fwLookup_cons]
    rw [fwLookup_cons] at h
    by_cases hp : p.1 = w
    · rwa [if_pos hp] at h ⊢
    · rw [if_neg hp] at h ⊢
      exact ih h

theorem fwLookup_append_none (m m2 : List (String × FeatureWord)) (w : String)
    (h : fwLookup m w = none) : fwLookup (m ++ m2) w = fwLookup m2 w := by
  induction m with
  | nil => rfl
  | cons p rest ih =>
    rw [List.cons_append, fwLookup_cons]
    rw [fwLookup_cons] at h
    by_cases hp : p.1 = w
    · rw [if_pos hp] at h; cases h
    · rw [if_neg hp] at h ⊢
      exact ih h

theorem fwLookup_map_update (m : List (String × FeatureWord)) (word : String)
    (f : FeatureWord → FeatureWord) (k : String) :
    fwLookup (m.map (fun p => if p.1 = word then (p.1, f p.2) else p)) k =
      if k = word then (fwLookup m k).map f else fwLookup m k := by
  induction m with
  | nil => by_cases hk : k = word <;> simp [fwLookup, hk]
  | cons p rest ih =>
    obtain ⟨p1, p2⟩ := p
    by_cases hpw : p1 = word
    · subst hpw
      by_cases hk : k = p1
      · subst hk
        simp [List.map_cons, fwLookup_cons, ih]
      · simp [List.map_cons, fwLookup_cons, hk, Ne.symm hk, ih]
    · by_cases hk : k = word
      · subst hk
        simp [List.map_cons, fwLookup_cons, hpw, ih]
      · by_cases hpk : p1 = k <;>
          simp [List.map_cons, fwLookup_cons, hpw, hk, hpk, ih]

theorem fwLookup_map_val (m : List (String × FeatureWord))
    (f : FeatureWord → FeatureWord) (k : String) :
    fwLookup (m.map (fun p => (p.1, f p.2))) k = (fwLookup m k).map f := by
  induction m with
  | nil => rfl
  | cons p rest ih =>
    rw [List.map_cons, fwLookup_cons, fwLookup_cons]
    by_cases hp : p.1 = k <;> simp [hp, ih]

/-- Looking the processed word up after `addFeatureWord`: a present entry is
bumped, an absent one is created fresh. -/
theorem addFeatureWord_lookup_self (term : SearchTermData)
    (m : List (String × FeatureWord)) (word : String) :
    fwLookup (addFeatureWord term m word) word =
      some (match fwLookup m word with
            | some st => bumpStat term st
            | none => freshStat term word) := by
  unfold addFeatureWord
  cases h : fwLookup m word with
  | some st =>
    rw [fwLookup_map_update, if_pos rfl, h]
    rfl
  | none =>
    rw [fwLookup_append_none m _ word h]
    simp [fwLookup]

/-- The update `addFeatureWord` leaves the entries of other keys untouched. -/
theorem addFeatureWord_lookup_other (term : SearchTermData)
    (m : List (String × FeatureWord)) (word k : String) (hk : k ≠ word) :
    fwLookup (addFeatureWord term m word) k = fwLookup m k := by
  unfold addFeatureWord
  cases h : fwLookup m word with
  | some st => rw [fwLookup_map_update, if_neg hk]
  | none =>
    cases hkm : fwLookup m k with
    | some v => rw [fwLookup_append_some m _ k v hkm]
    | none =>
      rw [fwLookup_append_none m _ k hkm]
      simp [fwLookup, fwLookup_cons, Ne.symm hk]

theorem addFeatureWord_orders_mono (term : SearchTermData)
    (m : List (String × FeatureWord)) (word k : String) (st : FeatureWord)
    (ht : 0 ≤ term.orders) (h : fwLookup m k = some st) :
    ∃ st2, fwLookup (addFeatureWord term m word) k = some st2 ∧
      st.orders ≤ st2.orders := by
  by_cases hk : k = word
  · subst hk
    rw [addFeatureWord_lookup_self, h]
    refine ⟨bumpStat term st, rfl, ?_⟩
    simp only [bumpStat]
    linarith
  · rw [addFeatureWord_lookup_other term m word k hk]
    exact ⟨st, h, le_refl _⟩

theorem addFeatureWord_entries (P : FeatureWord → Prop) (term : SearchTermData)
    (m : List (String × FeatureWord)) (word : String)
    (hm : ∀ p ∈ m, P p.2) (hfresh : P (freshStat term word))
    (hbump : ∀ st, P st → P (bumpStat term st)) :
    ∀ p ∈ addFeatureWord term m word, P p.2 := by
  intro p hp
  unfold addFeatureWord at hp
  cases h : fwLookup m word with
  | some st =>
    rw [h] at hp
    obtain ⟨q, hq, hqe⟩ := List.mem_map.mp hp
    by_cases hqw : q.1 = word
    · rw [if_pos hqw] at hqe
      rw [← hqe]
      exact hbump q.2 (hm q hq)
    · rw [if_neg hqw] at hqe
      rw [← hqe]
      exact hm q hq
  | none =>
    rw [h] at hp
    rcases List.mem_append.mp hp with hin | hnew
    · exact hm p hin
    · rw [List.mem_singleton] at hnew
      rw [hnew]
      exact hfresh

theorem addFeatureWord_orders_self (term : SearchTermData)
    (m : List (String × FeatureWord)) (word : String) (ht : 0 ≤ term.orders)
    (hm : ∀ p ∈ m, 0 ≤ p.2.orders) :
    ∃ st2, fwLookup (addFeatureWord term m word) word = some st2 ∧
      term.orders ≤ st2.orders := by
  rw [addFeatureWord_lookup_self]
  cases h : fwLookup m word with
  | some st =>
    refine ⟨bumpStat term st, rfl, ?_⟩
    have hnn := hm _ (fwLookup_mem m word st h)
    simp only [bumpStat] at *
    linarith
  | none => exact ⟨freshStat term word, rfl, le_refl _⟩

theorem innerFold_entries (P : FeatureWord → Prop) (term : SearchTermData) :
    ∀ (ws : List String) (m : List (String × FeatureWord)),
      (∀ p ∈ m, P p.2) → (∀ w, P (freshStat term w)) →
      (∀ st, P st → P (bumpStat term st)) →
      ∀ p ∈ ws.foldl (addFeatureWord term) m, P p.2 := by
  intro ws
  induction ws with
  | nil => intro m hm _ _ p hp; exact hm p hp
  | cons w rest ih =>
    intro m hm hfresh hbump p hp
    exact ih (addFeatureWord term m w)
      (addFeatureWord_entries P term m w hm (hfresh w) hbump) hfresh hbump p hp

theorem innerFold_orders_mono (term : SearchTermData) :
    ∀ (ws : List String) (m : List (String × FeatureWord)) (k : String)
      (st : FeatureWord), 0 ≤ term.orders → fwLookup m k = some st →
      ∃ st2, fwLookup (ws.foldl (addFeatureWord term) m) k = some st2 ∧
        st.orders ≤ st2.orders := by
  intro ws
  induction ws with
  | nil => intro m k st _ h; exact ⟨st, h, le_refl _⟩
  | cons w rest ih =>
    intro m k st ht h
    obtain ⟨st1, h1, hle1⟩ := addFeatureWord_orders_mono term m w k st ht h
    obtain ⟨st2, h2, hle2⟩ := ih (addFeatureWord term m w) k st1 ht h1
    exact ⟨st2, h2, le_trans hle1 hle2⟩

/-- After processing a record, each of its tokens has an entry accumulating at
least that record's orders. -/
theorem innerFold_orders_self (term : SearchTermData) (ws : List String)
    (m : List (String × FeatureWord)) (w : String) (hw : w ∈ ws)
    (ht : 0 ≤ term.orders) (hm : ∀ p ∈ m, 0 ≤ p.2.orders) :
    ∃ st2, fwLookup (ws.foldl (addFeatureWord term) m) w = some st2 ∧
      term.orders ≤ st2.orders := by
  obtain ⟨l1, l2, rfl⟩ := List.append_of_mem hw
  rw [List.foldl_append, List.foldl_cons]
  have hm1 : ∀ p ∈ l1.foldl (addFeatureWord term) m, 0 ≤ p.2.orders :=
    innerFold_entries _ term l1 m hm (fun _ => ht) (fun st hst => add_nonneg hst ht)
  obtain ⟨st1, h1, hle1⟩ := addFeatureWord_orders_self term _ w ht hm1
  obtain ⟨st2, h2, hle2⟩ := innerFold_orders_mono term l2 _ w st1 ht h1
  exact ⟨st2, h2, le_trans hle1 hle2⟩

theorem outerFold_entries (P : FeatureWord → Prop) :
    ∀ (l : List SearchTermData) (m : List (String × FeatureWord)),
      (∀ p ∈ m, P p.2) →
      (∀ t ∈ l, ∀ w, P (freshStat t w)) →
      (∀ t ∈ l, ∀ st, P st → P (bumpStat t st)) →
      ∀ p ∈ l.foldl addTermStats m, P p.2 := by
  intro l
  induction l with
  | nil => intro m hm _ _ p hp; exact hm p hp
  | cons t rest ih =>
    intro m hm hfresh hbump p hp
    refine ih (addTermStats m t) ?_
      (fun t' ht' => hfresh t' (List.mem_cons_of_mem t ht'))
      (fun t' ht' => hbump t' (List.mem_cons_of_mem t ht')) p hp
    exact innerFold_entries P t _ m hm (hfresh t (List.mem_cons_self t rest))
      (hbump t (List.mem_cons_self t rest))

theorem outerFold_orders_mono :
    ∀ (l : List SearchTermData) (m : List (String × FeatureWord)) (k : String)
      (st : FeatureWord), (∀ t ∈ l, 0 ≤ t.orders) → fwLookup m k = some st →
      ∃ st2, fwLookup (l.foldl addTermStats m) k = some st2 ∧
        st.orders ≤ st2.orders := by
  intro l
  induction l with
  | nil => intro m k st _ h; exact ⟨st, h, le_refl _⟩
  | cons t rest ih =>
    intro m k st hn h
    obtain ⟨st1, h1, hle1⟩ :=
      innerFold_orders_mono t (splitToFeatureWords t.searchTerm) m k st
        (hn t (List.mem_cons_self t rest)) h
    obtain ⟨st2, h2, hle2⟩ := ih (addTermStats m t) k st1
      (fun t' ht' => hn t' (List.mem_cons_of_mem t ht')) h1
    exact ⟨st2, h2, le_trans hle1 hle2⟩

/-- In a batch with non-negative orders, the statistics entry of each token of
a record accumulates at least that record's orders. -/
theorem rawStats_orders_ge (data : List SearchTermData) (t : SearchTermData)
    (w : String) (hn : ∀ t' ∈ data, 0 ≤ t'.orders) (ht : t ∈ data)
    (hw : w ∈ splitToFeatureWords t.searchTerm) :
    ∃ st, fwLookup (rawStats data) w = some st ∧ t.orders ≤ st.orders := by
  obtain ⟨l1, l2, rfl⟩ := List.append_of_mem ht
  unfold rawStats
  rw [List.foldl_append, List.foldl_cons]
  have hml : ∀ p ∈ l1.foldl addTermStats [], 0 ≤ p.2.orders :=
    outerFold_entries _ l1 [] (by intro p hp; cases hp)
      (fun t' ht' _ => hn t' (List.mem_append_left _ ht'))
      (fun t' ht' st hst =>
        add_nonneg hst (hn t' (List.mem_append_left _ ht')))
  have hto : 0 ≤ t.orders := hn t (List.mem_append_right l1 (List.mem_cons_self t l2))
  obtain ⟨st1, h1, hle1⟩ := innerFold_orders_self t _ _ w hw hto hml
  obtain ⟨st2, h2, hle2⟩ := outerFold_orders_mono l2 _ w st1
    (fun t' ht' =>
      hn t' (List.mem_append_right l1 (List.mem_cons_of_mem t ht'))) h1
  exact ⟨st2, h2, le_trans hle1 hle2⟩

theorem buildStats_lookup (data : List SearchTermData) (w : String) :
    fwLookup (buildFeatureWordStats data) w =
      (fwLookup (rawStats data) w).map finalizeStat := by
  unfold buildFeatureWordStats
  exact fwLookup_map_val _ _ _

theorem foldl_add_map (f : SearchTermData → ℚ) :
    ∀ (l : List SearchTermData) (a : ℚ),
      l.foldl (fun sum d => sum + f d) a = a + (l.map f).sum := by
  intro l
  induction l with
  | nil => intro a; simp
  | cons t rest ih =>
    intro a
    rw [List.foldl_cons, ih, List.map_cons, List.sum_cons]
    ring

theorem sum_zero_of_nonneg :
    ∀ (l : List ℚ), (∀ x ∈ l, 0 ≤ x) → l.sum = 0 → ∀ x ∈ l, x = 0 := by
  intro l
  induction l with
  | nil => intro _ _ x hx; cases hx
  | cons y rest ih =>
    intro h0 hz x hx
    rw [List.sum_cons] at hz
    have hy : 0 ≤ y := h0 y (List.mem_cons_self y rest)
    have hr : 0 ≤ rest.sum :=
      List.sum_nonneg (fun z hz' => h0 z (List.mem_cons_of_mem y hz'))
    rcases List.mem_cons.mp hx with rfl | hx'
    · linarith
    · exact ih (fun z hz' => h0 z (List.mem_cons_of_mem y hz')) (by linarith) x hx'

theorem map_sum_zero (f : SearchTermData → ℚ) (data : List SearchTermData)
    (hn : ∀ t ∈ data, 0 ≤ f t) (h : (data.map f).sum = 0) :
    ∀ t ∈ data, f t = 0 := by
  intro t ht
  refine sum_zero_of_nonneg _ ?_ h (f t) (List.mem_map_of_mem f ht)
  intro x hx
  obtain ⟨t', ht', rfl⟩ := List.mem_map.mp hx
  exact hn t' ht'

theorem computeBaseline_totalOrders (data : List SearchTermData) (config : Config) :
    (computeBaseline data config).totalOrders = (data.map (fun d => d.orders)).sum := by
  unfold computeBaseline
  dsimp only
  rw [foldl_add_map]
  ring

theorem computeBaseline_totalClicks (data : List SearchTermData) (config : Config) :
    (computeBaseline data config).totalClicks = (data.map (fun d => d.clicks)).sum := by
  unfold computeBaseline
  dsimp only
  rw [foldl_add_map]
  ring

theorem computeBaseline_totalSpend (data : List SearchTermData) (config : Config) :
    (computeBaseline data config).totalSpend = (data.map (fun d => d.spend)).sum := by
  unfold computeBaseline
  dsimp only
  rw [foldl_add_map]
  ring

theorem computeBaseline_totalSales (data : List SearchTermData) (config : Config) :
    (computeBaseline data config).totalSales = (data.map (fun d => d.sales)).sum := by
  unfold computeBaseline
  dsimp only
  rw [foldl_add_map]
  ring

theorem computeBaseline_overallAcos_def (data : List SearchTermData) (config : Config) :
    (computeBaseline data config).overallAcos =
      if 0 < (computeBaseline data config).totalSales then
        (computeBaseline data config).totalSpend / (computeBaseline data config).totalSales * 100
      else 0 := rfl

theorem computeBaseline_ocr_def (data : List SearchTermData) (config : Config) :
    (computeBaseline data config).overallConversionRate =
      if 0 < (computeBaseline data config).totalClicks then
        (computeBaseline data config).totalOrders / (computeBaseline data config).totalClicks * 100
      else 0 := rfl

theorem computeBaseline_targetAcos_def (data : List SearchTermData) (config : Config) :
    (computeBaseline data config).targetAcos =
      max 20 ((computeBaseline data config).overallAcos / config.TARGET_ACOS_INDEX) := rfl

theorem computeBaseline_exact_def (data : List SearchTermData) (config : Config) :
    (computeBaseline data config).exactNegativeClickThreshold =
      if (computeBaseline data config).overallConversionRate = 0 then none
      else some ((max 5
        ⌈config.EXACT_NEGATIVE_LV / ((computeBaseline data config).overallConversionRate / 100)⌉ : ℤ) : ℚ) := rfl

theorem computeBaseline_phrase_def (data : List SearchTermData) (config : Config) :
    (computeBaseline data config).phraseNegativeClickThreshold =
      if (computeBaseline data config).overallConversionRate = 0 then none
      else some ((max 50
        ⌈config.PHRASE_NEGATIVE_LV / ((computeBaseline data config).overallConversionRate / 100)⌉ : ℤ) : ℚ) := rfl

theorem computeBaseline_reliability_def (data : List SearchTermData) (config : Config) :
    (computeBaseline data config).reliabilityClickThreshold =
      if (computeBaseline data config).overallConversionRate = 0 then none
      else some (max 5
        (config.RELIABILITY / ((computeBaseline data config).overallConversionRate / 100))) := rfl

/-- Every `Pending` outcome of the cascade keeps the initial confidence 0.3:
no branch that leaves the suggestion at `Pending` ever reassigns `confidence`. -/
theorem classifyOutcome_pending_conf (config : Config) (b : Baseline)
    (featureStats : List (String × FeatureWord)) (term : SearchTermData) (m : MinFw) :
    (classifyOutcome config b featureStats term m).suggestion = Suggestion.Pending →
    (classifyOutcome config b featureStats term m).confidence = 0.3 := by
  unfold classifyOutcome lateOutcome
  repeat' (first | split | dsimp only)
  all_goals (intro h; first | rfl | (exact absurd h (by simp)))

/-- A record with its own orders, for which step 1 did not fire, lands in one
of the three bid-evaluation categories. -/
theorem classifyOutcome_orders (config : Config) (b : Baseline)
    (featureStats : List (String × FeatureWord)) (term : SearchTermData) (m : MinFw)
    (hz : m.hasZeroCvr = false) (ho : 0 < term.orders) :
    (classifyOutcome config b featureStats term m).suggestion = Suggestion.Increase_Bid ∨
    (classifyOutcome config b featureStats term m).suggestion = Suggestion.Decrease_Bid ∨
    (classifyOutcome config b featureStats term m).suggestion = Suggestion.Reasonable := by
  unfold classifyOutcome
  cases hw : m.zeroCvrWord <;> simp only [hz, hw] <;> rw [if_pos ho] <;>
    split_ifs <;> simp

/-- With an infinite phrase threshold no record is classified `Phrase_Negative`. -/
theorem classifyOutcome_no_phrase (config : Config) (b : Baseline)
    (featureStats : List (String × FeatureWord)) (term : SearchTermData) (m : MinFw)
    (hph : b.phraseNegativeClickThreshold = none) :
    (classifyOutcome config b featureStats term m).suggestion ≠ Suggestion.Phrase_Negative := by
  unfold classifyOutcome lateOutcome
  simp only [hph, qgeOpt]
  repeat' (first | split | dsimp only)
  all_goals simp_all

/-- With infinite thresholds no record is classified `Exact_Negative`. -/
theorem classifyOutcome_no_exact (config : Config) (b : Baseline)
    (featureStats : List (String × FeatureWord)) (term : SearchTermData) (m : MinFw)
    (hex : b.exactNegativeClickThreshold = none) :
    (classifyOutcome config b featureStats term m).suggestion ≠ Suggestion.Exact_Negative := by
  unfold classifyOutcome lateOutcome
  simp only [hex, qgeOpt]
  repeat' (first | split | dsimp only)
  all_goals simp_all

/-- With infinite negation thresholds and no token with a positive conversion
rate, a record without own orders is always `Pending`. -/
theorem classifyOutcome_pending_of (config : Config) (b : Baseline)
    (featureStats : List (String × FeatureWord)) (term : SearchTermData) (m : MinFw)
    (hph : b.phraseNegativeClickThreshold = none)
    (hex : b.exactNegativeClickThreshold = none)
    (hcv : ∀ c, m.minCvr = some c → ¬ 0 < c)
    (horders : term.orders = 0) :
    (classifyOutcome config b featureStats term m).suggestion = Suggestion.Pending := by
  have hno : ¬ 0 < term.orders := by rw [horders]; exact lt_irrefl 0
  unfold classifyOutcome lateOutcome
  rcases hzw : m.zeroCvrWord with _ | zcw <;> rcases hz : m.hasZeroCvr <;> dsimp only
  · rw [if_neg hno]
    rcases hmc : m.minCvr with _ | c <;> dsimp only
    · split_ifs <;> rfl
    · rw [if_neg (fun hand => hcv c hmc hand.1)]
      split_ifs <;> rfl
  · rw [if_neg hno]
    rcases hmc : m.minCvr with _ | c <;> dsimp only
    · split_ifs <;> rfl
    · rw [if_neg (fun hand => hcv c hmc hand.1)]
      split_ifs <;> rfl
  · rw [if_neg hno]
    rcases hmc : m.minCvr with _ | c <;> dsimp only
    · split_ifs <;> rfl
    · rw [if_neg (fun hand => hcv c hmc hand.1)]
      split_ifs <;> rfl
  · cases hl : fwLookup featureStats zcw <;> dsimp only <;>
      first
      | rfl
      | simp [hph, hex, qgeOpt]

/-- The estimated ACOS computed in step 3 of the cascade, in percent:
`cpc / ((minCvr/100) * averageOrderValue) * 100`, with a non-positive
denominator giving the JS value `Infinity` (`none`). -/
def step3EstimatedAcos (b : Baseline) (term : SearchTermData) (minCvr : ℚ) : Option ℚ :=
  if 0 < minCvr / 100 * b.averageOrderValue
  then some (term.cpc / (minCvr / 100 * b.averageOrderValue) * 100)
  else none

/-- Step 3 of the cascade for a record without own orders whose tokens show a
positive minimum conversion rate: the estimated ACOS is always stored; below
the reliability threshold the record is `Pending` with `problemKeyword` the
thinnest token and untouched confidence; otherwise the three-way band test
decides with confidence 0.6 / 0.6 / 0.5. -/
theorem classifyOutcome_step3 (config : Config) (b : Baseline)
    (featureStats : List (String × FeatureWord)) (term : SearchTermData) (m : MinFw)
    (minCvr : ℚ) (hz : m.hasZeroCvr = false) (ho : ¬ 0 < term.orders)
    (hmc : m.minCvr = some minCvr) (hcv : 0 < minCvr)
    (hcl : 0 < term.clicks) (hcp : 0 < term.cpc) :
    (classifyOutcome config b featureStats term m).estimatedAcos =
        some (step3EstimatedAcos b term minCvr) ∧
    (optLtOpt m.minClicks b.reliabilityClickThreshold = true →
      (classifyOutcome config b featureStats term m).suggestion = Suggestion.Pending ∧
      (classifyOutcome config b featureStats term m).problemKeyword = m.minClicksWord ∧
      (classifyOutcome config b featureStats term m).confidence = 0.3) ∧
    (optLtOpt m.minClicks b.reliabilityClickThreshold = false →
      (optLtQ (step3EstimatedAcos b term minCvr)
          (b.targetAcos * config.INCREASE_BID_LV) = true →
        (classifyOutcome config b featureStats term m).suggestion = Suggestion.Increase_Bid ∧
        (classifyOutcome config b featureStats term m).confidence = 0.6) ∧
      (optLtQ (step3EstimatedAcos b term minCvr)
          (b.targetAcos * config.INCREASE_BID_LV) = false →
        (optGtQ (step3EstimatedAcos b term minCvr)
            (b.targetAcos * config.DECREASE_BID_LV) = true →
          (classifyOutcome config b featureStats term m).suggestion = Suggestion.Decrease_Bid ∧
          (classifyOutcome config b featureStats term m).confidence = 0.6) ∧
        (optGtQ (step3EstimatedAcos b term minCvr)
            (b.targetAcos * config.DECREASE_BID_LV) = false →
          (classifyOutcome config b featureStats term m).suggestion = Suggestion.Reasonable ∧
          (classifyOutcome config b featureStats term m).confidence = 0.5))) := by
  unfold classifyOutcome step3EstimatedAcos
  rcases hzw : m.zeroCvrWord with _ | zcw <;>
    simp only [hz, hzw] <;>
    rw [if_neg ho] <;>
    simp only [hmc] <;>
    rw [if_pos ⟨hcv, hcl, hcp⟩] <;>
    (try dsimp only) <;>
    cases hrel : optLtOpt m.minClicks b.reliabilityClickThreshold <;>
    cases hinc : optLtQ
      (if 0 < minCvr / 100 * b.averageOrderValue
       then some (term.cpc / (minCvr / 100 * b.averageOrderValue) * 100)
       else none) (b.targetAcos * config.INCREASE_BID_LV) <;>
    cases hdec : optGtQ
      (if 0 < minCvr / 100 * b.averageOrderValue
       then some (term.cpc / (minCvr / 100 * b.averageOrderValue) * 100)
       else none) (b.targetAcos * config.DECREASE_BID_LV) <;>
    simp only [hrel, hinc, hdec] <;>
    norm_num

/-- Well-formed input: all metric fields of every record are non-negative
(§3 of the specification: "non-negative numbers"). -/
def NonnegData (data : List SearchTermData) : Prop :=
  ∀ t ∈ data, 0 ≤ t.impressions ∧ 0 ≤ t.clicks ∧ 0 ≤ t.spend ∧ 0 ≤ t.sales ∧
    0 ≤ t.orders

theorem finalizeStat_orders (st : FeatureWord) : (finalizeStat st).orders = st.orders := rfl

theorem finalizeStat_clicks (st : FeatureWord) : (finalizeStat st).clicks = st.clicks := rfl

/-- A record with its own orders (in a batch with non-negative orders) has no
token whose batch-wide statistics show zero orders: the token accumulated the
record's own orders. -/
theorem getMin_hasZeroCvr_false_of_orders (data : List SearchTermData)
    (t : SearchTermData) (hn : ∀ t' ∈ data, 0 ≤ t'.orders) (ht : t ∈ data)
    (ho : 0 < t.orders) :
    (getMinFeatureWordConversionRate t.searchTerm
      (buildFeatureWordStats data)).hasZeroCvr = false := by
  by_contra h
  rw [Bool.not_eq_false] at h
  obtain ⟨w, hw, st, hst, hc, hord⟩ := getMin_hasZeroCvr_src _ _ h
  rw [buildStats_lookup] at hst
  cases hraw : fwLookup (rawStats data) w with
  | none => rw [hraw] at hst; cases hst
  | some st' =>
    rw [hraw] at hst
    obtain ⟨st2, h2, hle⟩ := rawStats_orders_ge data t w hn ht hw
    rw [hraw] at h2
    cases h2
    cases hst
    rw [finalizeStat_orders] at hord
    linarith

theorem ocr_zero_split (data : List SearchTermData) (config : Config)
    (hnc : ∀ t ∈ data, 0 ≤ t.clicks)
    (h : (computeBaseline data config).overallConversionRate = 0) :
    (computeBaseline data config).totalClicks = 0 ∨
      (computeBaseline data config).totalOrders = 0 := by
  by_cases hc : 0 < (computeBaseline data config).totalClicks
  · right
    have hocr := computeBaseline_ocr_def data config
    rw [hocr, if_pos hc] at h
    rcases mul_eq_zero.mp h with h1 | h1
    · rcases div_eq_zero_iff.mp h1 with h2 | h2
      · exact h2
      · exact absurd h2 (ne_of_gt hc)
    · exact absurd h1 (by norm_num)
  · left
    have h0 : 0 ≤ (computeBaseline data config).totalClicks := by
      rw [computeBaseline_totalClicks]
      apply List.sum_nonneg
      intro x hx
      obtain ⟨t, ht, rfl⟩ := List.mem_map.mp hx
      exact hnc t ht
    linarith

theorem totalClicks_zero_each (data : List SearchTermData) (config : Config)
    (hn : ∀ t ∈ data, 0 ≤ t.clicks)
    (h : (computeBaseline data config).totalClicks = 0) : ∀ t ∈ data, t.clicks = 0 := by
  rw [computeBaseline_totalClicks] at h
  exact map_sum_zero _ data hn h

theorem totalOrders_zero_each (data : List SearchTermData) (config : Config)
    (hn : ∀ t ∈ data, 0 ≤ t.orders)
    (h : (computeBaseline data config).totalOrders = 0) : ∀ t ∈ data, t.orders = 0 := by
  rw [computeBaseline_totalOrders] at h
  exact map_sum_zero _ data hn h

/-- In a batch whose overall conversion rate is zero (with non-negative
metrics) every feature-word statistic has conversion rate zero. -/
theorem buildStats_rate_zero (data : List SearchTermData) (config : Config)
    (hn : ∀ t ∈ data, 0 ≤ t.clicks ∧ 0 ≤ t.orders)
    (hocr : (computeBaseline data config).overallConversionRate = 0) :
    ∀ w st, fwLookup (buildFeatureWordStats data) w = some st →
      st.conversionRate = 0 := by
  have hsplit := ocr_zero_split data config (fun t ht => (hn t ht).1) hocr
  intro w st hst
  rw [buildStats_lookup] at hst
  cases hraw : fwLookup (rawStats data) w with
  | none => rw [hraw] at hst; cases hst
  | some st' =>
    rw [hraw] at hst
    cases hst
    rcases hsplit with hc | ho
    · have hz := totalClicks_zero_each data config (fun t ht => (hn t ht).1) hc
      have hentry : st'.clicks = 0 := by
        have hall := outerFold_entries (fun fw => fw.clicks = 0) data []
          (by intro p hp; cases hp)
          (fun t ht w' => hz t ht)
          (fun t ht st0 h0 => by simp [bumpStat, h0, hz t ht])
        exact hall (w, st') (fwLookup_mem _ _ _ hraw)
      simp [finalizeStat, hentry]
    · have hz := totalOrders_zero_each data config (fun t ht => (hn t ht).2) ho
      have hentry : st'.orders = 0 := by
        have hall := outerFold_entries (fun fw => fw.orders = 0) data []
          (by intro p hp; cases hp)
          (fun t ht w' => hz t ht)
          (fun t ht st0 h0 => by simp [bumpStat, h0, hz t ht])
        exact hall (w, st') (fwLookup_mem _ _ _ hraw)
      simp [finalizeStat, hentry]

theorem foldl_addCounters_sum (config : Config) (b : Baseline)
    (featureStats : List (String × FeatureWord)) :
    ∀ (l : List SearchTermData) (c : Counters),
      sumCounters
          (l.foldl (fun c t => addCounters c (classifyTerm config b featureStats t).2) c)
        = sumCounters c + l.length := by
  intro l
  induction l with
  | nil => intro c; simp [List.foldl]
  | cons t rest ih =>
    intro c
    simp only [List.foldl, ih, sumCounters_add, classifyTerm_delta_sum, List.length_cons]
    ring

end AdAnalyzer

namespace AdAnalyzer

/-- The five per-category counters of a run sum to the number of records. -/
theorem analyzeSummary_counters_sum (data : List SearchTermData) (config : Config) :
    (analyzeSearchTerms data config).increaseBidCount
      + (analyzeSearchTerms data config).decreaseBidCount
      + (analyzeSearchTerms data config).negativeCount
      + (analyzeSearchTerms data config).reasonableCount
      + (analyzeSearchTerms data config).pendingCount = data.length := by
  unfold analyzeSearchTerms
  dsimp only
  rw [foldl_analyzeStep_snd]
  change sumCounters _ = data.length
  rw [foldl_addCounters_sum]
  simp [sumCounters, zeroCounters]

/-- The spec's overall-ACOS formula (§3), written from the spec's words, for
comparison with the computation in `computeBaseline`. -/
def specOverallAcos (data : List SearchTermData) : ℚ :=
  let totalSpend := (data.map (fun d => d.spend)).sum
  let totalSales := (data.map (fun d => d.sales)).sum
  if 0 < totalSales then totalSpend / totalSales * 100 else 0

theorem computeBaseline_overallAcos_spec (data : List SearchTermData) (config : Config) :
    (computeBaseline data config).overallAcos = specOverallAcos data := by
  rw [computeBaseline_overallAcos_def, computeBaseline_totalSpend,
    computeBaseline_totalSales]
  rfl

end AdAnalyzer

open AdAnalyzer

/-- C2: For every input batch, `analyzeSearchTerms` assigns exactly one
suggestion category to every record without throwing (one result with one
suggestion field per input record, in order), exactly one summary counter is
incremented per record, and the six summary counters (negativeCount covering
both negation categories) sum to `totalKeywords`, the number of input
records. -/
theorem C2_totality_counters (data : List SearchTermData) (config : Config) :
    (analyzeSearchTerms data config).increaseBidCount
        + (analyzeSearchTerms data config).decreaseBidCount
        + (analyzeSearchTerms data config).negativeCount
        + (analyzeSearchTerms data config).reasonableCount
        + (analyzeSearchTerms data config).pendingCount
      = (analyzeSearchTerms data config).totalKeywords
    ∧ (analyzeSearchTerms data config).totalKeywords = data.length
    ∧ (analyzeSearchTerms data config).results.length = data.length
    ∧ (analyzeSearchTerms data config).results
        = data.map (classifyOne data config) := by
  refine ⟨?_, rfl, ?_, analyzeSearchTerms_results data config⟩
  · exact analyzeSummary_counters_sum data config
  · rw [analyzeSearchTerms_results]
    exact List.length_map data (classifyOne data config)

/-- C4: For every batch with positive overall conversion rate, the negation
thresholds equal `max(5, ceil(exactNegativeLv / (ocr/100)))` and
`max(50, ceil(phraseNegativeLv / (ocr/100)))`; in particular an overall
conversion rate of 4% with `exactNegativeLv = 1` gives exact threshold
`ceil(1/0.04) = 25`.  (Restricted to `ocr > 0`, where rational division
agrees with the JS arithmetic; at `ocr = 0` the JS division yields Infinity,
modelled separately as `none`.) -/
theorem C4_threshold_formulas (data : List SearchTermData) (config : Config)
    (h : 0 < (computeBaseline data config).overallConversionRate) :
    (computeBaseline data config).exactNegativeClickThreshold
        = some ((max 5 ⌈config.EXACT_NEGATIVE_LV /
            ((computeBaseline data config).overallConversionRate / 100)⌉ : ℤ) : ℚ)
    ∧ (computeBaseline data config).phraseNegativeClickThreshold
        = some ((max 50 ⌈config.PHRASE_NEGATIVE_LV /
            ((computeBaseline data config).overallConversionRate / 100)⌉ : ℤ) : ℚ)
    ∧ ((computeBaseline data config).overallConversionRate = 4 →
        config.EXACT_NEGATIVE_LV = 1 →
        (computeBaseline data config).exactNegativeClickThreshold = some 25) := by
  refine ⟨?_, ?_, ?_⟩
  · rw [computeBaseline_exact_def, if_neg (ne_of_gt h)]
  · rw [computeBaseline_phrase_def, if_neg (ne_of_gt h)]
  · intro h4 hlv
    rw [computeBaseline_exact_def, if_neg (ne_of_gt h), h4, hlv]
    norm_num

/-- C5: For every batch and every valid configuration (positive
`targetAcosIndex`, the domain the spec's configuration validation allows and
on which rational division agrees with the JS arithmetic), the target ACOS
used by the classifier equals `max(20, overallAcos / targetAcosIndex)` where
`overallAcos = totalSpend/totalSales*100` if `totalSales > 0` and `0`
otherwise (the spec-side formula `specOverallAcos`). -/
theorem C5_target_acos_formula (data : List SearchTermData) (config : Config)
    (hidx : 0 < config.TARGET_ACOS_INDEX) :
    (computeBaseline data config).targetAcos
        = max 20 (specOverallAcos data / config.TARGET_ACOS_INDEX)
    ∧ (computeBaseline data config).overallAcos = specOverallAcos data := by
  have hacos := computeBaseline_overallAcos_spec data config
  exact ⟨by rw [computeBaseline_targetAcos_def, hacos], hacos⟩

/-- C8: `analyzeSearchTerms` is deterministic: two runs on the same ordered
record list and the same configuration yield identical summaries (all
counters, all overall metrics and the full ordered results list — the summary
structures are equal). -/
theorem C8_determinism (data : List SearchTermData) (config : Config)
    (s1 s2 : AnalysisSummary)
    (h1 : s1 = analyzeSearchTerms data config)
    (h2 : s2 = analyzeSearchTerms data config) : s1 = s2 := by
  rw [h1, h2]

/-- C9: In a batch with non-negative metrics, every record with its own
orders is classified `Increase_Bid`, `Decrease_Bid` or `Reasonable` — never
`Phrase_Negative`, `Exact_Negative` or `Pending`: the batch-wide statistics
of each of the record's own tokens accumulate that record's orders, so no
token of such a record can show `clicks > 0` with `orders = 0`, and step 1
never fires for it. -/
theorem C9_orders_positive_classified (data : List SearchTermData) (config : Config)
    (i : ℕ) (term : SearchTermData) (res : AnalysisResult)
    (hn : NonnegData data)
    (hterm : data[i]? = some term)
    (hres : (analyzeSearchTerms data config).results[i]? = some res)
    (ho : 0 < term.orders) :
    (res.suggestion = Suggestion.Increase_Bid ∨
      res.suggestion = Suggestion.Decrease_Bid ∨
      res.suggestion = Suggestion.Reasonable)
    ∧ res.suggestion ≠ Suggestion.Phrase_Negative
    ∧ res.suggestion ≠ Suggestion.Exact_Negative
    ∧ res.suggestion ≠ Suggestion.Pending := by
  rw [analyzeSearchTerms_results_idx, hterm, Option.map_some'] at hres
  have hres' : res = classifyOne data config term := by
    cases hres
    rfl
  subst hres'
  have htm : term ∈ data := by
    obtain ⟨hlen, hgetEq⟩ := List.getElem?_eq_some.mp hterm
    exact hgetEq ▸ List.getElem_mem hlen
  have hz := getMin_hasZeroCvr_false_of_orders data term
    (fun t' ht' => (hn t' ht').2.2.2.2) htm ho
  have hs := classifyOutcome_orders config (computeBaseline data config)
    (buildFeatureWordStats data) term
    (getMinFeatureWordConversionRate term.searchTerm (buildFeatureWordStats data)) hz ho
  rcases hs with h | h | h <;>
    refine ⟨?_, ?_, ?_, ?_⟩ <;> simp [classifyOne, classifyTerm, h]

/-- C10: Every result whose suggestion is `Pending` has confidence exactly
0.3: the initial default confidence is never reassigned on any `Pending`
path, including the step-1 insufficient-clicks sub-case and the step-3
reliability sub-case. -/
theorem C10_pending_confidence (data : List SearchTermData) (config : Config)
    (res : AnalysisResult)
    (hres : res ∈ (analyzeSearchTerms data config).results)
    (hp : res.suggestion = Suggestion.Pending) : res.confidence = 0.3 := by
  rw [analyzeSearchTerms_results] at hres
  obtain ⟨term, hterm, rfl⟩ := List.mem_map.mp hres
  exact classifyOutcome_pending_conf config (computeBaseline data config)
    (buildFeatureWordStats data) term
    (getMinFeatureWordConversionRate term.searchTerm (buildFeatureWordStats data)) hp

/-- C3: For every batch with non-negative metrics whose overall conversion
rate is zero, all three click thresholds are infinite (`none`), no record is
classified `Phrase_Negative` or `Exact_Negative`, every record without own
orders is routed to `Pending`, and the run still produces a complete summary
(the counters account for every record). -/
theorem C3_zero_conversion_rate_pending (data : List SearchTermData) (config : Config)
    (hn : NonnegData data)
    (hocr : (analyzeSearchTerms data config).overallConversionRate = 0) :
    (computeBaseline data config).exactNegativeClickThreshold = none
    ∧ (computeBaseline data config).phraseNegativeClickThreshold = none
    ∧ (computeBaseline data config).reliabilityClickThreshold = none
    ∧ (∀ res ∈ (analyzeSearchTerms data config).results,
        res.suggestion ≠ Suggestion.Phrase_Negative ∧
        res.suggestion ≠ Suggestion.Exact_Negative ∧
        (res.orders = 0 → res.suggestion = Suggestion.Pending))
    ∧ (analyzeSearchTerms data config).increaseBidCount
        + (analyzeSearchTerms data config).decreaseBidCount
        + (analyzeSearchTerms data config).negativeCount
        + (analyzeSearchTerms data config).reasonableCount
        + (analyzeSearchTerms data config).pendingCount
        = (analyzeSearchTerms data config).totalKeywords := by
  have hocr' : (computeBaseline data config).overallConversionRate = 0 := hocr
  have hex : (computeBaseline data config).exactNegativeClickThreshold = none := by
    rw [computeBaseline_exact_def, if_pos hocr']
  have hph : (computeBaseline data config).phraseNegativeClickThreshold = none := by
    rw [computeBaseline_phrase_def, if_pos hocr']
  have hrel : (computeBaseline data config).reliabilityClickThreshold = none := by
    rw [computeBaseline_reliability_def, if_pos hocr']
  have hrate := buildStats_rate_zero data config
    (fun t ht => ⟨(hn t ht).2.1, (hn t ht).2.2.2.2⟩) hocr'
  refine ⟨hex, hph, hrel, ?_, analyzeSummary_counters_sum data config⟩
  rw [analyzeSearchTerms_results]
  intro res hres
  obtain ⟨term, hterm, rfl⟩ := List.mem_map.mp hres
  have hcv : ∀ c,
      (getMinFeatureWordConversionRate term.searchTerm
        (buildFeatureWordStats data)).minCvr = some c → ¬ 0 < c := by
    intro c hc hpos
    obtain ⟨w, st, hl, hce, hcp⟩ := getMin_minCvrInv term.searchTerm _ c hc
    rw [hrate w st hl] at hce
    rw [← hce] at hcp
    exact lt_irrefl 0 hcp
  refine ⟨?_, ?_, ?_⟩
  · exact classifyOutcome_no_phrase config _ _ term _ hph
  · exact classifyOutcome_no_exact config _ _ term _ hex
  · intro horders
    exact classifyOutcome_pending_of config _ _ term _ hph hex hcv horders

/-- C7: The tokenizer of §4.1 (`splitToFeatureWords` in
`featureWordAnalyzer.ts`) drops tokens of length ≤ 1 or > 50, drops purely
numeric tokens, drops stop words, and returns the empty sequence on empty
(or null, modelled by the empty string) input; in particular
`splitToFeatureWords "sugar-free vitamin-c"` yields exactly
`["sugar", "free", "vitamin"]`, with `"c"` dropped for having length ≤ 1.
(The same-named tokenizer in `adAnalyzer.ts` keeps length-1 tokens and has no
numeric filter; §4.1's delimiter set and filters are those of
`featureWordAnalyzer.ts`.) -/
theorem C7_tokenizer_filters :
    (∀ (s : String) (w : String), w ∈ FeatureWordAnalyzer.splitToFeatureWords s →
        1 < w.length ∧ w.length ≤ 50 ∧ (w.data.all Char.isDigit) = false ∧
        ¬ w ∈ FeatureWordAnalyzer.stopWords)
    ∧ FeatureWordAnalyzer.splitToFeatureWords "" = []
    ∧ FeatureWordAnalyzer.splitToFeatureWords "sugar-free vitamin-c"
        = ["sugar", "free", "vitamin"] := by
  refine ⟨?_, rfl, by decide⟩
  intro s w hw
  unfold FeatureWordAnalyzer.splitToFeatureWords at hw
  by_cases hs : s = ""
  · rw [if_pos hs] at hw
    cases hw
  · rw [if_neg hs] at hw
    obtain ⟨hw2, hstop⟩ := List.mem_filter.mp hw
    obtain ⟨hw1, hdig⟩ := List.mem_filter.mp hw2
    obtain ⟨-, hlen⟩ := List.mem_filter.mp hw1
    rw [Bool.and_eq_true, decide_eq_true_eq, decide_eq_true_eq] at hlen
    rw [Bool.not_eq_true'] at hdig hstop
    refine ⟨hlen.1, hlen.2, hdig, ?_⟩
    intro hmem
    simp only [List.contains, List.elem_eq_mem, decide_eq_false_iff_not] at hstop
    exact hstop hmem

/-- C1 (amended): branches are evaluated in strict priority order with the
first match winning; any record one of whose feature words has `clicks > 0`,
`orders = 0` in the batch-wide statistics and click count at least
`phraseNegativeClickThreshold` is classified `Phrase_Negative` with
confidence 0.8 and is never classified `Increase_Bid`.  `problemKeyword` is
set to the record's zero-conversion token with the highest click count
(first seen wins ties) — a token that also meets the phrase threshold, but
not necessarily the given token when the record has several zero-conversion
tokens. -/
theorem C1_phrase_negative_priority (data : List SearchTermData) (config : Config)
    (i : ℕ) (term : SearchTermData) (res : AnalysisResult) (w : String)
    (st : FeatureWord)
    (hterm : data[i]? = some term)
    (hres : (analyzeSearchTerms data config).results[i]? = some res)
    (hw : w ∈ splitToFeatureWords term.searchTerm)
    (hst : fwLookup (buildFeatureWordStats data) w = some st)
    (hc : 0 < st.clicks) (ho : st.orders = 0)
    (hge : qgeOpt st.clicks
      (computeBaseline data config).phraseNegativeClickThreshold = true) :
    res.suggestion = Suggestion.Phrase_Negative
    ∧ res.confidence = 0.8
    ∧ res.suggestion ≠ Suggestion.Increase_Bid
    ∧ ∃ w2 st2, res.problemKeyword = some w2
        ∧ fwLookup (buildFeatureWordStats data) w2 = some st2
        ∧ 0 < st2.clicks ∧ st2.orders = 0 ∧ st.clicks ≤ st2.clicks
        ∧ qgeOpt st2.clicks
            (computeBaseline data config).phraseNegativeClickThreshold = true := by
  rw [analyzeSearchTerms_results_idx, hterm, Option.map_some'] at hres
  have hres' : res = classifyOne data config term := by
    cases hres
    rfl
  subst hres'
  obtain ⟨hz, w2, st2, hzw, hl2, hc2, ho2, hle⟩ :=
    getMin_zero_max term.searchTerm (buildFeatureWordStats data) w st hw hst hc ho
  have hge2 := qgeOpt_mono st.clicks st2.clicks _ hge hle
  obtain ⟨hsug, hconf, hpk⟩ := classifyOutcome_phrase config
    (computeBaseline data config) (buildFeatureWordStats data) term
    (getMinFeatureWordConversionRate term.searchTerm (buildFeatureWordStats data))
    w2 st2 hz hzw hl2 hge2
  refine ⟨hsug, hconf, ?_, w2, st2, hpk, hl2, hc2, ho2, hle, hge2⟩
  intro hcontra
  rw [show (classifyOne data config term).suggestion =
      Suggestion.Phrase_Negative from hsug] at hcontra
  cases hcontra

/-- C6 (amended): a record without own orders that reaches step 3 (step 1 did
not fire, some token has a positive conversion rate, and the record has
nonzero clicks and cpc): if the minimum token click count is below
`reliabilityClickThreshold` the result is `Pending` with `problemKeyword` the
thinnest token; otherwise `estimatedAcos = cpc / ((minCvr/100) *
averageOrderValue) * 100` — in percent, a factor 100 larger than the spec's
written formula — with a non-positive denominator treated as infinite ACOS,
and the same three-way band test as step 2 applies with confidence 0.6 for
the bid branches and 0.5 for `Reasonable`.  The estimate is stored in both
sub-cases. -/
theorem C6_step3_reliability_band (data : List SearchTermData) (config : Config)
    (i : ℕ) (term : SearchTermData) (res : AnalysisResult) (minCvr : ℚ)
    (hterm : data[i]? = some term)
    (hres : (analyzeSearchTerms data config).results[i]? = some res)
    (hz : (getMinFeatureWordConversionRate term.searchTerm
        (buildFeatureWordStats data)).hasZeroCvr = false)
    (ho : term.orders = 0)
    (hmc : (getMinFeatureWordConversionRate term.searchTerm
        (buildFeatureWordStats data)).minCvr = some minCvr)
    (hcv : 0 < minCvr) (hcl : 0 < term.clicks) (hcp : 0 < term.cpc) :
    res.estimatedAcos
        = some (step3EstimatedAcos (computeBaseline data config) term minCvr)
    ∧ (optLtOpt (getMinFeatureWordConversionRate term.searchTerm
          (buildFeatureWordStats data)).minClicks
          (computeBaseline data config).reliabilityClickThreshold = true →
        res.suggestion = Suggestion.Pending ∧
        res.problemKeyword = (getMinFeatureWordConversionRate term.searchTerm
          (buildFeatureWordStats data)).minClicksWord)
    ∧ (optLtOpt (getMinFeatureWordConversionRate term.searchTerm
          (buildFeatureWordStats data)).minClicks
          (computeBaseline data config).reliabilityClickThreshold = false →
        (optLtQ (step3EstimatedAcos (computeBaseline data config) term minCvr)
            ((computeBaseline data config).targetAcos * config.INCREASE_BID_LV) = true →
          res.suggestion = Suggestion.Increase_Bid ∧ res.confidence = 0.6) ∧
        (optLtQ (step3EstimatedAcos (computeBaseline data config) term minCvr)
            ((computeBaseline data config).targetAcos * config.INCREASE_BID_LV) = false →
          (optGtQ (step3EstimatedAcos (computeBaseline data config) term minCvr)
              ((computeBaseline data config).targetAcos * config.DECREASE_BID_LV) = true →
            res.suggestion = Suggestion.Decrease_Bid ∧ res.confidence = 0.6) ∧
          (optGtQ (step3EstimatedAcos (computeBaseline data config) term minCvr)
              ((computeBaseline data config).targetAcos * config.DECREASE_BID_LV) = false →
            res.suggestion = Suggestion.Reasonable ∧ res.confidence = 0.5))) := by
  rw [analyzeSearchTerms_results_idx, hterm, Option.map_some'] at hres
  have hres' : res = classifyOne data config term := by
    cases hres
    rfl
  subst hres'
  have hno : ¬ 0 < term.orders := by rw [ho]; exact lt_irrefl 0
  obtain ⟨hA, hB, hC⟩ := classifyOutcome_step3 config (computeBaseline data config)
    (buildFeatureWordStats data) term
    (getMinFeatureWordConversionRate term.searchTerm (buildFeatureWordStats data))
    minCvr hz hno hmc hcv hcl hcp
  refine ⟨hA, ?_, ?_⟩
  · intro hrel
    obtain ⟨h1, h2, -⟩ := hB hrel
    exact ⟨h1, h2⟩
  · intro hrel
    exact hC hrel

/-- A record with the derived metrics computed exactly as ingestion computes
them (`parseExcelData`): `acos = spend/sales*100` if `sales > 0` else 0,
`ctr = clicks/impressions*100` if `impressions > 0` else 0,
`cvr = orders/clicks*100` if `clicks > 0` else 0,
`cpc = spend/clicks` if `clicks > 0` else 0. -/
def mkSearchTerm (searchTerm : String)
    (impressions clicks spend sales orders : ℚ) : SearchTermData :=
  { searchTerm := searchTerm
    impressions := impressions
    clicks := clicks
    spend := spend
    sales := sales
    orders := orders
    acos := if 0 < sales then spend / sales * 100 else 0
    ctr := if 0 < impressions then clicks / impressions * 100 else 0
    cvr := if 0 < clicks then orders / clicks * 100 else 0
    cpc := if 0 < clicks then spend / clicks else 0
    campaign := none
    adGroup := none
    matchType := none }

theorem tok_foo : splitToFeatureWords "foo" = ["foo"] := by decide

/-- A one-record batch with clicks but no orders: its overall conversion rate
is zero. -/
def dataZero : List SearchTermData := [mkSearchTerm "foo" 600 60 10 0 0]

theorem dataZero_stats :
    buildFeatureWordStats dataZero = [("foo", ⟨"foo", 60, 0, 10, 0, 0⟩)] := by
  simp [buildFeatureWordStats, rawStats, addTermStats, dataZero, mkSearchTerm,
    List.foldl, tok_foo, addFeatureWord, fwLookup, freshStat]
  norm_num [finalizeStat]

theorem dataZero_base : computeBaseline dataZero CONFIG =
    { totalSpend := 10, totalSales := 0, totalOrders := 0, totalClicks := 60,
      overallAcos := 0, overallConversionRate := 0, averageCpc := 1/6,
      averageOrderValue := 0, targetAcos := 20,
      exactNegativeClickThreshold := none,
      phraseNegativeClickThreshold := none,
      reliabilityClickThreshold := none } := by
  norm_num [computeBaseline, dataZero, mkSearchTerm, List.foldl, CONFIG, max_def]

theorem dataZero_minfw :
    getMinFeatureWordConversionRate "foo" [("foo", ⟨"foo", 60, 0, 10, 0, 0⟩)] =
      ⟨none, true, some "foo", some "foo", some 60⟩ := by
  simp [getMinFeatureWordConversionRate, tok_foo, List.foldl]
  norm_num [minFwStep, fwLookup, qltOpt, zeroCvrWordClicks]

theorem dataZero_nonneg : NonnegData dataZero := by
  intro t ht
  rw [dataZero, List.mem_singleton] at ht
  subst ht
  norm_num [mkSearchTerm]

theorem dataZero_ocr : (analyzeSearchTerms dataZero CONFIG).overallConversionRate = 0 := by
  rw [show (analyzeSearchTerms dataZero CONFIG).overallConversionRate
      = (computeBaseline dataZero CONFIG).overallConversionRate from rfl, dataZero_base]

theorem dataZero_res_sugg :
    (classifyOne dataZero CONFIG (mkSearchTerm "foo" 600 60 10 0 0)).suggestion
      = Suggestion.Pending := by
  unfold classifyOne classifyTerm
  rw [dataZero_base, dataZero_stats]
  simp only [mkSearchTerm]
  rw [dataZero_minfw]
  norm_num [classifyOutcome, qgeOpt, fwLookup]

/-- Witness for C3 at a concrete batch: one record with 60 clicks and no
orders gives a zero overall conversion rate, infinite thresholds, and a
`Pending` record. -/
theorem C3_witness :
    NonnegData dataZero
    ∧ (analyzeSearchTerms dataZero CONFIG).overallConversionRate = 0
    ∧ (computeBaseline dataZero CONFIG).exactNegativeClickThreshold = none
    ∧ (computeBaseline dataZero CONFIG).phraseNegativeClickThreshold = none :=
  ⟨dataZero_nonneg, dataZero_ocr,
    (C3_zero_conversion_rate_pending dataZero CONFIG dataZero_nonneg dataZero_ocr).1,
    (C3_zero_conversion_rate_pending dataZero CONFIG dataZero_nonneg dataZero_ocr).2.1⟩

/-- Witness for C8: the two runs on a concrete batch coincide. -/
theorem C8_witness :
    analyzeSearchTerms dataZero CONFIG = analyzeSearchTerms dataZero CONFIG :=
  C8_determinism dataZero CONFIG _ _ rfl rfl

/-- Witness for C10 at a concrete batch: the `Pending` record of `dataZero`
has confidence exactly 0.3. -/
theorem C10_witness :
    (classifyOne dataZero CONFIG (mkSearchTerm "foo" 600 60 10 0 0)).confidence
      = 0.3 :=
  C10_pending_confidence dataZero CONFIG _
    (by
      rw [analyzeSearchTerms_results]
      exact List.mem_map_of_mem _ (by rw [dataZero]; exact List.mem_singleton.mpr rfl))
    dataZero_res_sugg

/-- A one-record batch with 25 clicks and one order: overall conversion rate
exactly 4%. -/
def dataOCR4 : List SearchTermData := [mkSearchTerm "gadget" 1000 25 5 40 1]

theorem dataOCR4_base : computeBaseline dataOCR4 CONFIG =
    { totalSpend := 5, totalSales := 40, totalOrders := 1, totalClicks := 25,
      overallAcos := 25/2, overallConversionRate := 4, averageCpc := 1/5,
      averageOrderValue := 40, targetAcos := 20,
      exactNegativeClickThreshold := some 25,
      phraseNegativeClickThreshold := some 125,
      reliabilityClickThreshold := some 25 } := by
  norm_num [computeBaseline, dataOCR4, mkSearchTerm, List.foldl, CONFIG, max_def]

/-- Witness for C4: with an overall conversion rate of exactly 4% and the
default configuration, the exact-negative threshold is 25 and the phrase
threshold 125. -/
theorem C4_witness :
    0 < (computeBaseline dataOCR4 CONFIG).overallConversionRate
    ∧ (computeBaseline dataOCR4 CONFIG).exactNegativeClickThreshold = some 25
    ∧ (computeBaseline dataOCR4 CONFIG).phraseNegativeClickThreshold = some 125 := by
  have h : 0 < (computeBaseline dataOCR4 CONFIG).overallConversionRate := by
    rw [dataOCR4_base]
    norm_num
  have h4 : (computeBaseline dataOCR4 CONFIG).overallConversionRate = 4 := by
    rw [dataOCR4_base]
  obtain ⟨-, h2, h3⟩ := C4_threshold_formulas dataOCR4 CONFIG h
  refine ⟨h, h3 h4 rfl, ?_⟩
  rw [h2, h4]
  norm_num [CONFIG]

/-- Witness for C5 at a concrete batch and the default configuration. -/
theorem C5_witness :
    0 < CONFIG.TARGET_ACOS_INDEX
    ∧ (computeBaseline dataOCR4 CONFIG).targetAcos
        = max 20 (specOverallAcos dataOCR4 / CONFIG.TARGET_ACOS_INDEX) :=
  ⟨by norm_num [CONFIG],
    (C5_target_acos_formula dataOCR4 CONFIG (by norm_num [CONFIG])).1⟩

/-- Witness for C7: the token "sugar" of `"sugar-free vitamin-c"` passes all
four tokenizer filters. -/
theorem C7_witness :
    1 < ("sugar" : String).length ∧ ("sugar" : String).length ≤ 50
    ∧ (("sugar" : String).data.all Char.isDigit) = false
    ∧ ¬ ("sugar" : String) ∈ FeatureWordAnalyzer.stopWords :=
  C7_tokenizer_filters.1 "sugar-free vitamin-c" "sugar" (by decide)

theorem tok_alpha : splitToFeatureWords "alpha" = ["alpha"] := by decide

theorem tok_alphabeta : splitToFeatureWords "alpha beta" = ["alpha", "beta"] := by decide

/-- A two-record batch: a converting record "alpha beta" and a non-converting
record "alpha" that reaches step 3 of the cascade. -/
def dataEst : List SearchTermData :=
  [mkSearchTerm "alpha beta" 1000 100 50 200 10,
   mkSearchTerm "alpha" 100 10 5 0 0]

theorem dataEst_stats : buildFeatureWordStats dataEst =
    [("alpha", ⟨"alpha", 110, 10, 55, 200, 100/11⟩),
     ("beta", ⟨"beta", 100, 10, 50, 200, 10⟩)] := by
  simp [buildFeatureWordStats, rawStats, addTermStats, dataEst, mkSearchTerm,
    List.foldl, tok_alpha, tok_alphabeta, addFeatureWord, fwLookup, freshStat,
    bumpStat]
  norm_num [finalizeStat]

theorem dataEst_base : computeBaseline dataEst CONFIG =
    { totalSpend := 55, totalSales := 200, totalOrders := 10, totalClicks := 110,
      overallAcos := 55/2, overallConversionRate := 100/11, averageCpc := 1/2,
      averageOrderValue := 20, targetAcos := 55/2,
      exactNegativeClickThreshold := some 11,
      phraseNegativeClickThreshold := some 55,
      reliabilityClickThreshold := some 11 } := by
  norm_num [computeBaseline, dataEst, mkSearchTerm, List.foldl, CONFIG, max_def]

theorem dataEst_minfw :
    getMinFeatureWordConversionRate
        (mkSearchTerm "alpha" 100 10 5 0 0).searchTerm
        (buildFeatureWordStats dataEst) =
      ⟨some (100/11), false, none, some "alpha", some 110⟩ := by
  rw [show (mkSearchTerm "alpha" 100 10 5 0 0).searchTerm = "alpha" from rfl,
    dataEst_stats]
  simp [getMinFeatureWordConversionRate, tok_alpha, List.foldl]
  norm_num [minFwStep, fwLookup, qltOpt, zeroCvrWordClicks]

theorem dataEst_nonneg : NonnegData dataEst := by
  intro t ht
  rw [dataEst] at ht
  rcases List.mem_cons.mp ht with rfl | ht'
  · norm_num [mkSearchTerm]
  · rw [List.mem_singleton] at ht'
    subst ht'
    norm_num [mkSearchTerm]

theorem dataEst_at1 : dataEst[1]? = some (mkSearchTerm "alpha" 100 10 5 0 0) := rfl

theorem dataEst_res1 :
    (analyzeSearchTerms dataEst CONFIG).results[1]?
      = some (classifyOne dataEst CONFIG (mkSearchTerm "alpha" 100 10 5 0 0)) := by
  rw [analyzeSearchTerms_results_idx, dataEst_at1, Option.map_some']

/-- Witness for C6 at a concrete batch: the record "alpha" (10 clicks, no
orders, cpc 1/2) reaches step 3 with minimum token conversion rate 100/11 and
its stored estimate follows the percent formula. -/
theorem C6_witness :
    (0:ℚ) < 100/11
    ∧ (classifyOne dataEst CONFIG (mkSearchTerm "alpha" 100 10 5 0 0)).estimatedAcos
        = some (step3EstimatedAcos (computeBaseline dataEst CONFIG)
            (mkSearchTerm "alpha" 100 10 5 0 0) (100/11))
    ∧ step3EstimatedAcos (computeBaseline dataEst CONFIG)
        (mkSearchTerm "alpha" 100 10 5 0 0) (100/11) = some (55/2) := by
  refine ⟨by norm_num, ?_, ?_⟩
  · exact (C6_step3_reliability_band dataEst CONFIG 1 _ _ (100/11)
      dataEst_at1 dataEst_res1
      (by rw [dataEst_minfw])
      (by norm_num [mkSearchTerm])
      (by rw [dataEst_minfw])
      (by norm_num)
      (by norm_num [mkSearchTerm])
      (by norm_num [mkSearchTerm])).1
  · rw [dataEst_base]
    norm_num [step3EstimatedAcos, mkSearchTerm]

/-- Witness for C9 at a concrete batch: the converting record "alpha beta"
(10 orders) is classified into one of the three bid categories and none of
the other three. -/
theorem C9_witness :
    ((classifyOne dataEst CONFIG
        (mkSearchTerm "alpha beta" 1000 100 50 200 10)).suggestion
          = Suggestion.Increase_Bid ∨
      (classifyOne dataEst CONFIG
        (mkSearchTerm "alpha beta" 1000 100 50 200 10)).suggestion
          = Suggestion.Decrease_Bid ∨
      (classifyOne dataEst CONFIG
        (mkSearchTerm "alpha beta" 1000 100 50 200 10)).suggestion
          = Suggestion.Reasonable)
    ∧ (classifyOne dataEst CONFIG
        (mkSearchTerm "alpha beta" 1000 100 50 200 10)).suggestion
          ≠ Suggestion.Phrase_Negative
    ∧ (classifyOne dataEst CONFIG
        (mkSearchTerm "alpha beta" 1000 100 50 200 10)).suggestion
          ≠ Suggestion.Exact_Negative
    ∧ (classifyOne dataEst CONFIG
        (mkSearchTerm "alpha beta" 1000 100 50 200 10)).suggestion
          ≠ Suggestion.Pending :=
  C9_orders_positive_classified dataEst CONFIG 0
    (mkSearchTerm "alpha beta" 1000 100 50 200 10) _ dataEst_nonneg rfl
    (by rw [analyzeSearchTerms_results_idx]; rfl)
    (by norm_num [mkSearchTerm])

theorem tok_aa : splitToFeatureWords "aa" = ["aa"] := by decide

theorem tok_bb : splitToFeatureWords "bb" = ["bb"] := by decide

theorem tok_aabb : splitToFeatureWords "aa bb" = ["aa", "bb"] := by decide

theorem tok_cc : splitToFeatureWords "cc" = ["cc"] := by decide

/-- A four-record batch in which the record "aa bb" has two zero-conversion
tokens with different click counts, both above the phrase threshold. -/
def dataTwoZero : List SearchTermData :=
  [mkSearchTerm "aa" 1000 100 10 0 0,
   mkSearchTerm "bb" 2000 200 20 0 0,
   mkSearchTerm "aa bb" 10 1 1 0 0,
   mkSearchTerm "cc" 500 74 30 600 30]

theorem dataTwoZero_stats : buildFeatureWordStats dataTwoZero =
    [("aa", ⟨"aa", 101, 0, 11, 0, 0⟩),
     ("bb", ⟨"bb", 201, 0, 21, 0, 0⟩),
     ("cc", ⟨"cc", 74, 30, 30, 600, 1500/37⟩)] := by
  simp [buildFeatureWordStats, rawStats, addTermStats, dataTwoZero, mkSearchTerm,
    List.foldl, tok_aa, tok_bb, tok_aabb, tok_cc, addFeatureWord, fwLookup,
    freshStat, bumpStat]
  norm_num [finalizeStat]

theorem dataTwoZero_base : computeBaseline dataTwoZero CONFIG =
    { totalSpend := 61, totalSales := 600, totalOrders := 30, totalClicks := 375,
      overallAcos := 61/6, overallConversionRate := 8, averageCpc := 61/375,
      averageOrderValue := 20, targetAcos := 20,
      exactNegativeClickThreshold := some 13,
      phraseNegativeClickThreshold := some 63,
      reliabilityClickThreshold := some (25/2) } := by
  have hc1 : ⌈(25:ℚ)/2⌉ = (13:ℤ) := by
    rw [Int.ceil_eq_iff] <;> norm_num
  have hc2 : ⌈(125:ℚ)/2⌉ = (63:ℤ) := by
    rw [Int.ceil_eq_iff] <;> norm_num
  norm_num [computeBaseline, dataTwoZero, mkSearchTerm, List.foldl, CONFIG, max_def,
    hc1, hc2]

theorem dataTwoZero_minfw :
    getMinFeatureWordConversionRate "aa bb"
      [("aa", ⟨"aa", 101, 0, 11, 0, 0⟩),
       ("bb", ⟨"bb", 201, 0, 21, 0, 0⟩),
       ("cc", ⟨"cc", 74, 30, 30, 600, 1500/37⟩)] =
      ⟨none, true, some "bb", some "aa", some 101⟩ := by
  simp [getMinFeatureWordConversionRate, tok_aabb, List.foldl]
  norm_num [minFwStep, fwLookup, qltOpt, zeroCvrWordClicks,
    (by decide : ("aa":String) ≠ "bb")]

theorem dataTwoZero_res2_pk :
    (classifyOne dataTwoZero CONFIG (mkSearchTerm "aa bb" 10 1 1 0 0)).problemKeyword
      = some "bb" := by
  unfold classifyOne classifyTerm
  rw [dataTwoZero_base, dataTwoZero_stats]
  simp only [mkSearchTerm]
  rw [dataTwoZero_minfw]
  norm_num [classifyOutcome, qgeOpt, fwLookup, (by decide : ("aa":String) ≠ "bb")]

theorem dataTwoZero_lookup_aa :
    fwLookup (buildFeatureWordStats dataTwoZero) "aa"
      = some ⟨"aa", 101, 0, 11, 0, 0⟩ := by
  rw [dataTwoZero_stats]
  norm_num [fwLookup]

theorem dataTwoZero_res2 :
    (analyzeSearchTerms dataTwoZero CONFIG).results[2]?
      = some (classifyOne dataTwoZero CONFIG (mkSearchTerm "aa bb" 10 1 1 0 0)) := by
  rw [analyzeSearchTerms_results_idx]
  rfl

/-- Counterexample to C1 as stated: in `dataTwoZero` the record "aa bb" has
the zero-conversion token "aa" with 101 clicks, above the phrase threshold 63,
satisfying every hypothesis of the claim for `w = "aa"`; yet `problemKeyword`
is `"bb"` (the zero-conversion token with the most clicks), not `"aa"`. -/
theorem C1_counterexample :
    dataTwoZero[2]? = some (mkSearchTerm "aa bb" 10 1 1 0 0)
    ∧ "aa" ∈ splitToFeatureWords (mkSearchTerm "aa bb" 10 1 1 0 0).searchTerm
    ∧ fwLookup (buildFeatureWordStats dataTwoZero) "aa"
        = some ⟨"aa", 101, 0, 11, 0, 0⟩
    ∧ (0:ℚ) < (⟨"aa", 101, 0, 11, 0, 0⟩ : FeatureWord).clicks
    ∧ (⟨"aa", 101, 0, 11, 0, 0⟩ : FeatureWord).orders = 0
    ∧ qgeOpt (⟨"aa", 101, 0, 11, 0, 0⟩ : FeatureWord).clicks
        (computeBaseline dataTwoZero CONFIG).phraseNegativeClickThreshold = true
    ∧ (analyzeSearchTerms dataTwoZero CONFIG).results[2]?
        = some (classifyOne dataTwoZero CONFIG (mkSearchTerm "aa bb" 10 1 1 0 0))
    ∧ (classifyOne dataTwoZero CONFIG
        (mkSearchTerm "aa bb" 10 1 1 0 0)).problemKeyword = some "bb"
    ∧ some "bb" ≠ some "aa" := by
  refine ⟨rfl, ?_, dataTwoZero_lookup_aa, by norm_num, rfl, ?_, dataTwoZero_res2,
    dataTwoZero_res2_pk, by decide⟩
  · rw [show (mkSearchTerm "aa bb" 10 1 1 0 0).searchTerm = "aa bb" from rfl, tok_aabb]
    exact List.mem_cons_self "aa" ["bb"]
  · rw [dataTwoZero_base]
    norm_num [qgeOpt]

/-- Witness for the amended C1 at a concrete batch, instantiated at the
maximal zero-conversion token "bb". -/
theorem C1_witness :
    (classifyOne dataTwoZero CONFIG (mkSearchTerm "aa bb" 10 1 1 0 0)).suggestion
        = Suggestion.Phrase_Negative
    ∧ (classifyOne dataTwoZero CONFIG (mkSearchTerm "aa bb" 10 1 1 0 0)).confidence
        = 0.8 := by
  obtain ⟨h1, h2, -, -⟩ := C1_phrase_negative_priority dataTwoZero CONFIG 2
    (mkSearchTerm "aa bb" 10 1 1 0 0) _ "bb" ⟨"bb", 201, 0, 21, 0, 0⟩
    rfl dataTwoZero_res2
    (by rw [show (mkSearchTerm "aa bb" 10 1 1 0 0).searchTerm = "aa bb" from rfl,
          tok_aabb]
        exact List.mem_cons_of_mem "aa" (List.mem_singleton.mpr rfl))
    (by rw [dataTwoZero_stats]
        norm_num [fwLookup, (by decide : ("aa":String) ≠ "bb")])
    (by norm_num) rfl
    (by rw [dataTwoZero_base]; norm_num [qgeOpt])
  exact ⟨h1, h2⟩

theorem dataEst_res1_est :
    (classifyOne dataEst CONFIG (mkSearchTerm "alpha" 100 10 5 0 0)).estimatedAcos
      = some (some (55/2)) := by
  unfold classifyOne classifyTerm
  rw [dataEst_minfw, dataEst_base]
  norm_num [classifyOutcome, optLtOpt, optLtQ, optGtQ, mkSearchTerm, CONFIG]

/-- Counterexample to C6 as stated: the record "alpha" of `dataEst` reaches
the step-3 band with `minCvr = 100/11`, `cpc = 1/2` and average order value
20; the engine stores `estimatedAcos = 27.5` (percent), while the spec's
formula `cpc / ((minCvr/100) * averageOrderValue)` evaluates to `11/40 =
0.275` — off by a factor of 100. -/
theorem C6_counterexample :
    (analyzeSearchTerms dataEst CONFIG).results[1]?
        = some (classifyOne dataEst CONFIG (mkSearchTerm "alpha" 100 10 5 0 0))
    ∧ (mkSearchTerm "alpha" 100 10 5 0 0).orders = 0
    ∧ (0:ℚ) < (mkSearchTerm "alpha" 100 10 5 0 0).clicks
    ∧ (0:ℚ) < (mkSearchTerm "alpha" 100 10 5 0 0).cpc
    ∧ (getMinFeatureWordConversionRate
        (mkSearchTerm "alpha" 100 10 5 0 0).searchTerm
        (buildFeatureWordStats dataEst)).minCvr = some (100/11)
    ∧ optLtOpt (getMinFeatureWordConversionRate
          (mkSearchTerm "alpha" 100 10 5 0 0).searchTerm
          (buildFeatureWordStats dataEst)).minClicks
        (computeBaseline dataEst CONFIG).reliabilityClickThreshold = false
    ∧ (classifyOne dataEst CONFIG (mkSearchTerm "alpha" 100 10 5 0 0)).estimatedAcos
        = some (some (55/2))
    ∧ (mkSearchTerm "alpha" 100 10 5 0 0).cpc /
        ((100/11) / 100 * (computeBaseline dataEst CONFIG).averageOrderValue) = 11/40
    ∧ (55/2 : ℚ) ≠ 11/40 := by
  refine ⟨dataEst_res1, rfl, by norm_num [mkSearchTerm], by norm_num [mkSearchTerm],
    by rw [dataEst_minfw], ?_, dataEst_res1_est, ?_, by norm_num⟩
  · rw [dataEst_minfw, dataEst_base]
    norm_num [optLtOpt]
  · rw [dataEst_base]
    norm_num [mkSearchTerm]
